import Mathlib

/-!
Verification development for the fantasy-auction-assistant backend.

The Python modules under backend/ (models.py, config.py, state.py, engine.py,
event_store.py, fuzzy_match.py, opponent_model.py, server.py) are shallowly
embedded below:

* Python floats are modelled as exact rationals, and Python ints as integers;
  the reals involved never exercise IEEE rounding in the properties proved.
* Python dicts are modelled as insertion-ordered association lists (a key is
  replaced in place, a fresh key is appended), mirroring CPython semantics.
* Wall-clock timestamps (time.time()) are threaded as explicit arguments.
* Human-readable rationale strings, printing, HTML formatting and network I/O
  are elided: no claim concerns them and they influence no control flow.
* The rapidfuzz similarity scorer used in NameResolver.resolve step 2 is
  third-party code; it is abstracted as an explicit function parameter, so
  theorems universally quantify over its behaviour.
* NameResolver's lookup cache is a pure memo of a deterministic function over
  an index frozen at load time, so resolution is modelled as a pure function.
-/

namespace FantasyAuction

/-! ## Python-dict helper: insertion-ordered association lists -/

/-- Insertion-ordered association list standing in for a Python dict. -/
abbrev Dict (α β : Type) := List (α × β)

namespace Dict

variable {α β : Type} [DecidableEq α]

/-- Python d.get(k) / d[k] lookup. -/
def get? (d : Dict α β) (k : α) : Option β :=
  match d with
  | [] => none
  | (k', v) :: rest => if k' = k then some v else get? rest k

/-- Python k in d. -/
def hasKey (d : Dict α β) (k : α) : Bool := (d.get? k).isSome

/-- Python d[k] = v : replace in place if the key exists, append otherwise. -/
def set (d : Dict α β) (k : α) (v : β) : Dict α β :=
  match d with
  | [] => [(k, v)]
  | (k', v') :: rest => if k' = k then (k, v) :: rest else (k', v') :: set rest k v

/-- Update the value at an existing key in place (no-op when absent). -/
def modify (d : Dict α β) (k : α) (f : β → β) : Dict α β :=
  match d with
  | [] => []
  | (k', v') :: rest => if k' = k then (k', f v') :: rest else (k', v') :: modify rest k f

/-- Python list(d.values()). -/
def values (d : Dict α β) : List β := d.map Prod.snd

/-- Python list(d.keys()). -/
def keys (d : Dict α β) : List α := d.map Prod.fst

end Dict

/-! ## Python numeric helpers -/

/-- Python round-half-to-even on an exact rational. -/
def roundHalfEven (q : ℚ) : ℤ :=
  let f := ⌊q⌋
  let r := q - f
  if r < 1/2 then f else if 1/2 < r then f + 1 else if f % 2 = 0 then f else f + 1

/-- Python round(q, n) (banker's rounding, exact-rational idealisation). -/
def pyRound (q : ℚ) (n : ℕ) : ℚ :=
  (roundHalfEven (q * (10 : ℚ) ^ n) : ℚ) / (10 : ℚ) ^ n

/-- Python int(q): truncation toward zero. -/
def pyInt (q : ℚ) : ℤ :=
  if q < 0 then -⌊-q⌋ else ⌊q⌋

/-- The str-or-int values ESPN/Sleeper use for player and team ids
(Optional[Any] fields holding either type). -/
abbrev PyId := String ⊕ ℤ

/-- Python str(x) on an id value. -/
def PyId.str : PyId → String
  | .inl s => s
  | .inr n => toString n

/-- Python truthiness of an id value (None is handled by callers). -/
def PyId.truthy : PyId → Bool
  | .inl s => s ≠ ""
  | .inr n => n ≠ 0

/-! ## Python string helpers (ASCII-faithful; the player-name data is ASCII) -/

/-- Python str.strip() with no arguments. -/
def pyStrip (s : String) : String :=
  ⟨((s.data.dropWhile Char.isWhitespace).reverse.dropWhile Char.isWhitespace).reverse⟩

/-- Python str.lower(). -/
def pyLower (s : String) : String := ⟨s.data.map Char.toLower⟩

/-- Python str.rstrip(chars): drop trailing characters satisfying p. -/
def pyRstrip (p : Char → Bool) (s : String) : String :=
  ⟨(s.data.reverse.dropWhile p).reverse⟩

/-- Worker for the single-character splitter. -/
def splitCharAux (sep : Char) : List Char → List Char → List String
  | [], acc => [⟨acc.reverse⟩]
  | c :: rest, acc =>
    if c = sep then ⟨acc.reverse⟩ :: splitCharAux sep rest []
    else splitCharAux sep rest (c :: acc)

/-- Python s.split(sep) for a one-character separator (the comma splits of
the configured team-name aliases). -/
def splitChar (sep : Char) (s : String) : List String := splitCharAux sep s.data []

/-- Worker for whitespace collapsing, tracking whether the previous
character was whitespace. -/
def collapseWsAux : Bool → List Char → List Char
  | _, [] => []
  | prevWs, c :: rest =>
    if c.isWhitespace then
      if prevWs then collapseWsAux true rest else ' ' :: collapseWsAux true rest
    else
      c :: collapseWsAux false rest

/-- Python re.sub of one-or-more whitespace by a single space. -/
def collapseWs (cs : List Char) : List Char := collapseWsAux false cs

/-! ## fuzzy_match.py -/

/-- The generational suffixes stripped by the _SUFFIXES regex. The dotted
variants of jr/sr cannot occur at that point because the punctuation pass has
already removed every period. -/
def suffixWords : List String := ["jr", "sr", "ii", "iii", "iv", "v", "2nd", "3rd"]

/-- The punctuation class [.-''] removed by normalize_name. -/
def isVaryingPunctuation (c : Char) : Bool :=
  c == '.' || c == '-' || c == '\'' || c == '’'

/-- Python re.sub of the anchored suffix pattern: when the final
whitespace-separated token is a generational suffix, remove it together with
the whitespace run before it. -/
def stripGenSuffix (cs : List Char) : List Char :=
  let rcs := cs.reverse
  let tok := rcs.takeWhile (fun c => !c.isWhitespace)
  let rest := rcs.drop tok.length
  match rest with
  | [] => cs
  | c :: _ =>
    if c.isWhitespace ∧ (⟨tok.reverse⟩ : String) ∈ suffixWords then
      (rest.dropWhile Char.isWhitespace).reverse
    else cs

/-- fuzzy_match.normalize_name: strip, lowercase, drop varying punctuation,
drop a trailing generational suffix, collapse whitespace, strip. -/
def normalize_name (name : String) : String :=
  let s₁ := pyLower (pyStrip name)
  let s₂ : String := ⟨s₁.data.filter (fun c => !isVaryingPunctuation c)⟩
  let s₃ : String := ⟨stripGenSuffix s₂.data⟩
  let s₄ : String := ⟨collapseWs s₃.data⟩
  pyStrip s₄

/-- state.DraftState._normalize_name: lowercase, strip, drop trailing periods. -/
def stateNormalizeName (name : String) : String :=
  pyRstrip (· == '.') (pyStrip (pyLower name))

/-! ## models.py -/

/-- models.PlayerProjection. Position is the str value of the Position enum
(QB/RB/WR/TE/K/DEF plus the basketball positions). -/
structure PlayerProjection where
  player_name : String
  position : String
  projected_points : ℚ
  baseline_aav : ℚ
  tier : ℤ
  deriving Repr, DecidableEq

/-- models.PlayerState: a projection plus live draft state. -/
structure PlayerState where
  projection : PlayerProjection
  is_drafted : Bool := false
  draft_price : Option ℤ := none
  drafted_by_team : Option String := none
  vorp : ℚ := 0
  vona : ℚ := 0
  vona_next_player : Option String := none
  adp_value : Option ℚ := none
  deriving Repr, DecidableEq

/-- An entry of MyTeamState.players_acquired ({"name", "position", "price"}). -/
structure Acquisition where
  name : String
  position : String
  price : ℤ
  deriving Repr, DecidableEq

/-- models.MyTeamState. -/
structure MyTeamState where
  team_name : String
  budget : ℤ
  total_budget : ℤ
  roster : Dict String (Option String) := []
  players_acquired : List Acquisition := []
  slot_types : Dict String String := []
  deriving Repr, DecidableEq

/-- MyTeamState.roster_spots_remaining. -/
def MyTeamState.roster_spots_remaining (t : MyTeamState) : ℕ :=
  (t.roster.values.filter (fun v => v = none)).length

/-- MyTeamState.max_bid: budget minus one dollar reserved per remaining
empty slot beyond the current pick. -/
def MyTeamState.max_bid (t : MyTeamState) : ℤ :=
  let empty := t.roster_spots_remaining
  if empty ≤ 1 then t.budget else t.budget - (empty - 1)

/-- Slot label to base type: the slot_types entry, or the label with trailing
digits stripped when absent. -/
def slotBaseType (slot_types : Dict String String) (label : String) : String :=
  (slot_types.get? label).getD (pyRstrip (fun c => c.isDigit) label)

/-- MyTeamState.open_slots_for_position: empty slot labels whose base type's
eligibility list contains the position, in roster order. -/
def MyTeamState.open_slots_for_position (t : MyTeamState) (position : String)
    (slot_eligibility : Dict String (List String)) : List String :=
  (t.roster.filter (fun kv =>
      kv.2 = none ∧
      position ∈ ((slot_eligibility.get? (slotBaseType t.slot_types kv.1)).getD
        [slotBaseType t.slot_types kv.1]))).map Prod.fst

/-- MyTeamState.can_still_start. -/
def MyTeamState.can_still_start (t : MyTeamState) (position : String)
    (slot_eligibility : Dict String (List String)) : Bool :=
  (t.open_slots_for_position position slot_eligibility).length > 0

/-- models.TeamInfo (the fields the state engine consumes; the extra "allow"
escape bucket carries no typed semantics). name defaults to "Unknown". -/
structure TeamInfo where
  teamId : Option PyId := none
  name : String := "Unknown"
  totalBudget : ℤ := 200
  remainingBudget : Option ℤ := none
  rosterSize : Option ℤ := none
  deriving Repr, DecidableEq

/-- models.DraftLogEntry. -/
structure DraftLogEntry where
  playerName : String := "Unknown"
  teamId : Option PyId := none
  bidAmount : ℤ := 0
  keeper : Bool := false
  deriving Repr, DecidableEq

/-- models.RosterEntry (position: int slot id for ESPN, str for Sleeper). -/
structure RosterEntry where
  playerName : String := "Unknown"
  position : Option PyId := none
  deriving Repr, DecidableEq

/-- models.NominationInfo. -/
structure NominationInfo where
  playerName : String := "Unknown"
  nominatingTeamId : Option PyId := none
  deriving Repr, DecidableEq

/-- models.DraftUpdate: the cumulative snapshot the extension posts. -/
structure DraftUpdate where
  currentNomination : Option NominationInfo := none
  currentBid : Option ℚ := none
  teams : List TeamInfo := []
  draftLog : List DraftLogEntry := []
  rosters : Dict String (List RosterEntry) := []
  deriving Repr, DecidableEq

/-- models.AdviceAction. -/
inductive AdviceAction where
  | BUY
  | PASS
  | PRICE_ENFORCE
  | NOMINATE
  deriving Repr, DecidableEq

/-- Opponent position-demand summary (OpponentTracker.get_position_demand). -/
structure PositionDemand where
  teams_needing : ℕ
  players_remaining : ℕ
  scarcity_ratio : ℚ
  bidding_war_risk : Bool
  deriving Repr, DecidableEq

/-- models.EngineAdvice (reasoning and the adp comparison string elided:
they are built by pure string formatting and drive no behaviour). -/
structure EngineAdvice where
  action : AdviceAction
  max_bid : ℤ
  fmv : ℚ
  inflation_rate : ℚ
  scarcity_multiplier : ℚ
  vorp : ℚ
  vona : ℚ := 0
  vona_next_player : Option String := none
  adp_value : Option ℚ := none
  opponent_demand : Option PositionDemand := none
  strategy_multiplier : ℚ := 1
  deriving Repr, DecidableEq

/-- The exact-match index a NameResolver carries: aggressively normalized
form to canonical player key (_normalized_to_canonical). The fuzzy corpus has
the same entries in the same order, so it is not stored twice. -/
structure ResolverIndex where
  normalizedToCanonical : Dict String String
  deriving Repr, DecidableEq

/-- The similarity-scorer step of NameResolver.resolve (rapidfuzz
process.extractOne over the corpus with token_sort_ratio and the fixed
threshold). Third-party code, abstracted as a function from the normalized
input to the canonical key of the best scoring corpus entry, if any clears
the threshold. -/
abbrev FuzzyStep := String → Option String

/-- NameResolver.build_index over the players dict: for every canonical key,
index the aggressive normalization of the display name, and additionally the
canonical key itself when the two differ. -/
def buildIndex (players : Dict String PlayerState) : ResolverIndex :=
  { normalizedToCanonical :=
      players.foldl
        (fun acc kv =>
          let canonicalKey := kv.1
          let aggressive := normalize_name kv.2.projection.player_name
          let acc := acc.set aggressive canonicalKey
          if canonicalKey ≠ aggressive then acc.set canonicalKey canonicalKey
          else acc)
        [] }

/-- NameResolver.resolve: empty input is no match; otherwise aggressive
normalization with exact index lookup, falling back to the fuzzy scorer.
The per-name cache is a pure memo and is elided. -/
def resolve (idx : ResolverIndex) (fz : FuzzyStep) (incoming : String) : Option String :=
  if incoming = "" then none
  else
    let aggressive := normalize_name incoming
    match idx.normalizedToCanonical.get? aggressive with
    | some canonical => some canonical
    | none => fz aggressive

/-! ## config.py -/

/-- Python str.upper(). -/
def pyUpper (s : String) : String := ⟨s.data.map Char.toUpper⟩

/-- Settings.parsed_roster_slots: strip/uppercase the comma-separated slot
names (taken here as the already-split token list), drop empties, and number
duplicated slot names (RB, RB becomes RB1, RB2). -/
def parsedRosterSlots (roster_slots : List String) : List String :=
  let raw := (roster_slots.map (fun s => pyUpper (pyStrip s))).filter (fun s => s ≠ "")
  let counts : Dict String ℕ :=
    raw.foldl (fun acc s => acc.set s ((acc.get? s).getD 0 + 1)) []
  (raw.foldl
    (fun (acc : Dict String ℕ × List String) slot =>
      let seen := acc.1.set slot ((acc.1.get? slot).getD 0 + 1)
      let n := (seen.get? slot).getD 0
      if (counts.get? slot).getD 0 > 1 then (seen, acc.2 ++ [slot ++ toString n])
      else (seen, acc.2 ++ [slot]))
    ([], [])).2

/-- Settings.slot_base_type: labeled slot name to base type by stripping
trailing digits. -/
def slotBaseTypeMap (labels : List String) : Dict String String :=
  labels.foldl (fun acc l => acc.set l (pyRstrip (fun c => c.isDigit) l)) []

/-- A draft strategy profile (config.DRAFT_STRATEGIES entry). -/
structure Strategy where
  position_weights : Dict String ℚ := []
  tier_weights : Dict ℤ ℚ := []
  deriving Repr, DecidableEq

/-- The balanced (default, neutral) strategy profile. -/
def balancedStrategy : Strategy := {}

/-- The football slot-eligibility table from SPORT_PROFILES. -/
def footballEligibility : Dict String (List String) :=
  [("QB", ["QB"]), ("RB", ["RB"]), ("WR", ["WR"]), ("TE", ["TE"]),
   ("K", ["K"]), ("DEF", ["DEF"]),
   ("FLEX", ["RB", "WR", "TE"]),
   ("SUPERFLEX", ["QB", "RB", "WR", "TE"]),
   ("BENCH", ["QB", "RB", "WR", "TE", "K", "DEF"])]

/-- The football VORP baseline ranks from SPORT_PROFILES. -/
def footballVorpBaselines : Dict String ℤ :=
  [("QB", 11), ("RB", 30), ("WR", 30), ("TE", 11), ("K", 1), ("DEF", 1)]

/-- The football Sleeper position-slot map from SPORT_PROFILES. -/
def footballSleeperSlotMap : Dict String String :=
  [("QB", "QB"), ("RB", "RB"), ("WR", "WR"), ("TE", "TE"),
   ("K", "K"), ("DEF", "DEF"), ("FLEX", "FLEX"), ("SUPER_FLEX", "SUPERFLEX"),
   ("BN", "BENCH"), ("IR", "IR")]

/-- The football ESPN slot-id map from SPORT_PROFILES. -/
def footballEspnSlotMap : Dict ℤ String :=
  [(0, "QB"), (2, "RB"), (4, "WR"), (6, "TE"), (16, "DEF"), (17, "K"),
   (20, "BENCH"), (21, "IR"), (23, "FLEX")]

/-- config.Settings: the fields the state engine and valuation engine read.
parsed_roster_slots and slot_base_type are derived (see above); the env-file
loading and sport auto-detection machinery is configuration glue. -/
structure Settings where
  my_team_name : String := "My Team"
  league_size : ℤ := 10
  budget : ℤ := 200
  roster_slots : List String := ["QB", "RB", "RB", "WR", "WR", "TE", "FLEX", "FLEX", "K", "DEF"]
  SLOT_ELIGIBILITY : Dict String (List String) := footballEligibility
  vorp_baselines : Dict String ℤ := footballVorpBaselines
  active_strategy : Strategy := balancedStrategy
  sleeper_slot_map : Dict String String := footballSleeperSlotMap
  espn_slot_map : Dict ℤ String := footballEspnSlotMap
  deriving Repr, DecidableEq

/-! ## opponent_model.py -/

/-- The per-team metadata collected into team_map inside
OpponentTracker.update_from_rosters: (name, remainingBudget, rosterSize). -/
structure TeamMeta where
  name : String
  budget : Option ℤ
  rosterSize : Option ℤ
  deriving Repr, DecidableEq

/-- opponent_model.OpponentTracker state. -/
structure OpponentTracker where
  team_rosters : Dict String (Dict String ℕ) := []
  team_budgets : Dict String ℤ := []
  team_sizes : Dict String ℤ := []
  team_names : Dict String String := []
  deriving Repr, DecidableEq

/-- The positions skipped when counting starters (bench, injured reserve,
unknown). -/
def skippedPositions : List String := ["BENCH", "IR", "UNK"]

/-- Position resolution for one roster entry (platform-aware: Sleeper sends
position strings, ESPN sends int slot ids). -/
def resolveRosterPosition (cfg : Settings) : Option PyId → String
  | none => "UNK"
  | some (.inl s) => (cfg.sleeper_slot_map.get? s).getD s
  | some (.inr n) => (cfg.espn_slot_map.get? n).getD "UNK"

/-- The team_id to metadata map built at the top of
OpponentTracker.update_from_rosters. -/
def oppTeamMap (teams : List TeamInfo) : Dict String TeamMeta :=
  teams.foldl
    (fun acc t =>
      match t.teamId with
      | some tid => acc.set tid.str ⟨t.name, t.remainingBudget, t.rosterSize⟩
      | none => acc)
    []

/-- The lowered, stripped own-team aliases the roster loop skips. -/
def oppAliases (my_team_name : String) : List String :=
  (splitChar ',' my_team_name).map (fun a => pyLower (pyStrip a))

/-- The per-team starter counts accumulated from one roster entry list. -/
def oppPosCounts (cfg : Settings) (entries : List RosterEntry) : Dict String ℕ :=
  entries.foldl
    (fun acc e =>
      let pos := resolveRosterPosition cfg e.position
      if pos ∈ skippedPositions then acc
      else acc.set pos ((acc.get? pos).getD 0 + 1))
    []

/-- The display name recorded for one tracked team id. -/
def oppTeamName (team_map : Dict String TeamMeta) (team_id_str : String) : String :=
  match team_map.get? team_id_str with
  | some m => m.name
  | none => "Team #" ++ team_id_str

/-- The body of the roster loop of OpponentTracker.update_from_rosters for
one (team id, roster entries) pair. -/
def oppStep (cfg : Settings) (team_map : Dict String TeamMeta) (my_aliases : List String)
    (tr : OpponentTracker) (kv : String × List RosterEntry) : OpponentTracker :=
  let team_name := oppTeamName team_map kv.1
  if team_name ≠ "" ∧ pyStrip (pyLower team_name) ∈ my_aliases then tr
  else
    let tr := { tr with
      team_rosters := tr.team_rosters.set kv.1 (oppPosCounts cfg kv.2)
      team_names := tr.team_names.set kv.1 team_name }
    let tr := match team_map.get? kv.1 with
      | some m =>
        match m.budget with
        | some b => { tr with team_budgets := tr.team_budgets.set kv.1 b }
        | none => tr
      | none => tr
    match team_map.get? kv.1 with
    | some m =>
      match m.rosterSize with
      | some rs => { tr with team_sizes := tr.team_sizes.set kv.1 rs }
      | none => tr
    | none => tr

/-- OpponentTracker.update_from_rosters. -/
def OpponentTracker.update_from_rosters (tr : OpponentTracker) (cfg : Settings)
    (rosters : Dict String (List RosterEntry)) (teams : List TeamInfo)
    (my_team_name : String) : OpponentTracker :=
  rosters.foldl (oppStep cfg (oppTeamMap teams) (oppAliases my_team_name)) tr

/-- OpponentTracker.get_position_demand. -/
def OpponentTracker.get_position_demand (tr : OpponentTracker) (cfg : Settings)
    (position : String) (remaining_at_position : ℕ) : PositionDemand :=
  let max_slots :=
    ((cfg.roster_slots.map (fun s => pyUpper (pyStrip s))).filter
      (fun slot_type =>
        position ∈ ((cfg.SLOT_ELIGIBILITY.get? slot_type).getD [slot_type]))).length
  let teams_needing :=
    (tr.team_rosters.values.filter
      (fun pos_counts => (pos_counts.get? position).getD 0 < max_slots)).length
  let remaining : ℕ := max remaining_at_position 1
  { teams_needing := teams_needing
    players_remaining := remaining_at_position
    scarcity_ratio := pyRound ((teams_needing : ℚ) / remaining) 2
    bidding_war_risk := decide ((remaining : ℚ) * (3 / 4) ≤ (teams_needing : ℚ)) }

/-! ## state.py: the DraftState store -/

/-- The DraftState singleton's fields (display-only helpers such as
resolved_sport are constant glue and elided; see the module comment for
raw_latest, timestamps and the resolver cache). inflation_history entries
are (timestamp, factor) pairs. -/
structure DraftState where
  players : Dict String PlayerState := []
  team_budgets : Dict String ℤ := []
  my_team : MyTeamState
  replacement_level : Dict String ℚ := []
  total_remaining_aav : ℚ := 0
  total_remaining_cash : ℚ := 0
  inflation_factor : ℚ := 1
  draft_log : List DraftLogEntry := []
  raw_latest : Option DraftUpdate := none
  inflation_history : List (ℚ × ℚ) := []
  resolverIndex : ResolverIndex := ⟨[]⟩
  opponent_tracker : OpponentTracker := {}
  newly_drafted : List PlayerState := []
  team_aliases : Dict String String := []
  deriving Repr, DecidableEq

/-- DraftState.__init__: the post-construction, pre-load state. -/
def initState (cfg : Settings) : DraftState :=
  let parsed := parsedRosterSlots cfg.roster_slots
  { my_team :=
      { team_name := cfg.my_team_name
        budget := cfg.budget
        total_budget := cfg.budget
        roster := parsed.foldl (fun acc s => acc.set s none) []
        slot_types := slotBaseTypeMap parsed } }

/-- Stable insertion step for a descending sort by a rational key. -/
def insertDescBy {α : Type} (key : α → ℚ) (x : α) : List α → List α
  | [] => [x]
  | y :: ys => if key y ≤ key x then x :: y :: ys else y :: insertDescBy key x ys

/-- Python sorted(..., key=key, reverse=True): the stable descending sort. -/
def sortDescBy {α : Type} (key : α → ℚ) : List α → List α
  | [] => []
  | x :: xs => insertDescBy key x (sortDescBy key xs)

/-- DraftState.get_remaining_players: undrafted players, optionally filtered
by position, sorted by VORP descending. -/
def DraftState.get_remaining_players (s : DraftState) (position : Option String) :
    List PlayerState :=
  let results := s.players.values.filter (fun ps => !ps.is_drafted)
  let results := match position with
    | some pos => results.filter (fun ps => ps.projection.position = pos)
    | none => results
  sortDescBy (fun ps => ps.vorp) results

/-- The scan inside engine.calculate_vona: once the player itself has been
seen, the next listed player supplies the comparison. -/
def vonaLoop (pname : String) (pts : ℚ) : Bool → List PlayerState → Option (ℚ × String)
  | _, [] => none
  | found, ps :: rest =>
    if ps.projection.player_name = pname then vonaLoop pname pts true rest
    else if found then
      some (pyRound (max 0 (pts - ps.projection.projected_points)) 1,
        ps.projection.player_name)
    else vonaLoop pname pts found rest

/-- engine.calculate_vona: value over the next-best undrafted player at the
position; the last player at a position falls back to their own VORP. -/
def calculate_vona (player : PlayerState) (s : DraftState) : ℚ × Option String :=
  let remaining := s.get_remaining_players (some player.projection.position)
  match vonaLoop player.projection.player_name player.projection.projected_points
      false remaining with
  | some (v, nm) => (v, some nm)
  | none => (pyRound (max 0 player.vorp) 1, none)

/-- DraftState._compute_vonas. calculate_vona never reads any vona field, so
computing every player's VONA against the pre-pass snapshot is equivalent to
the in-place mutation the Python performs. -/
def computeVonas (s : DraftState) : Dict String PlayerState :=
  s.players.map (fun kv =>
    if !kv.2.is_drafted then
      let vn := calculate_vona kv.2 s
      (kv.1, { kv.2 with vona := vn.1, vona_next_player := vn.2 })
    else (kv.1, { kv.2 with vona := 0, vona_next_player := none }))

/-- Total baseline AAV over undrafted players (the sum inside
DraftState._recompute_aggregates). -/
def remainingAAV (players : Dict String PlayerState) : ℚ :=
  ((players.values.filter (fun ps => !ps.is_drafted)).map
    (fun ps => ps.projection.baseline_aav)).sum

/-- Total remaining cash: tracked team budgets when present, the full league
purse otherwise. -/
def remainingCash (cfg : Settings) (team_budgets : Dict String ℤ) : ℚ :=
  if team_budgets ≠ [] then ((team_budgets.values.map (fun b => (b : ℚ))).sum)
  else ((cfg.league_size * cfg.budget : ℤ) : ℚ)

/-- DraftState._recompute_aggregates: remaining AAV, remaining cash, the
inflation factor (1.0 on zero remaining AAV), an inflation-history sample,
and a VONA refresh. -/
def recomputeAggregates (cfg : Settings) (t : ℚ) (s : DraftState) : DraftState :=
  let aav := remainingAAV s.players
  let cash := remainingCash cfg s.team_budgets
  let infl := if aav > 0 then cash / aav else 1
  let s' := { s with
    total_remaining_aav := aav
    total_remaining_cash := cash
    inflation_factor := infl
    inflation_history := s.inflation_history ++ [(t, infl)] }
  { s' with players := computeVonas s' }

/-- Python list indexing on rationals (negative indices count from the end;
out-of-range accesses raise in Python and cannot occur at the call sites
reached here, where the index is clamped to the list length). -/
def pyListGet (l : List ℚ) (i : ℤ) : ℚ :=
  if 0 ≤ i then l.getD i.toNat 0 else l.getD (l.length - (-i).toNat) 0

/-- DraftState._compute_replacement_levels: per position, the projected
points of the Nth-ranked player (N from the configured baselines). -/
def computeReplacementLevels (cfg : Settings) (s : DraftState) : Dict String ℚ :=
  let by_position : Dict String (List ℚ) :=
    s.players.values.foldl
      (fun acc ps =>
        acc.set ps.projection.position
          ((acc.get? ps.projection.position).getD [] ++ [ps.projection.projected_points]))
      []
  by_position.foldl
    (fun acc kv =>
      let points_list := sortDescBy id kv.2
      let baseline_rank := (cfg.vorp_baselines.get? kv.1).getD 1
      let idx := min (baseline_rank - 1) ((points_list.length : ℤ) - 1)
      acc.set kv.1 (pyListGet points_list idx))
    s.replacement_level

/-- DraftState._compute_vorps: VORP clamped at zero. -/
def computeVorps (repl : Dict String ℚ) (players : Dict String PlayerState) :
    Dict String PlayerState :=
  players.map (fun kv =>
    (kv.1, { kv.2 with
      vorp := max 0 (kv.2.projection.projected_points -
        ((repl.get? kv.2.projection.position).getD 0)) }))

/-- DraftState._load_rows: insert every projection (keyed by the state
normalization of the stripped name), compute replacement levels and VORPs,
recompute aggregates, and build the resolver index. The CSV cell parsing is
elided: a row enters as its parsed field values. -/
def loadRows (cfg : Settings) (t : ℚ) (rows : List PlayerProjection) (s : DraftState) :
    DraftState :=
  let players := rows.foldl
    (fun acc row =>
      let proj : PlayerProjection := { row with
        player_name := pyStrip row.player_name
        position := pyStrip row.position }
      acc.set (stateNormalizeName proj.player_name) { projection := proj })
    s.players
  let s := { s with players := players }
  let s := { s with replacement_level := computeReplacementLevels cfg s }
  let s := { s with players := computeVorps s.replacement_level s.players }
  let s := recomputeAggregates cfg t s
  { s with resolverIndex := buildIndex s.players }

/-- DraftState.reset: clear all draft progress back to the post-load
baseline, then recompute aggregates. -/
def DraftState.reset (cfg : Settings) (t : ℚ) (s : DraftState) : DraftState :=
  let parsed := parsedRosterSlots cfg.roster_slots
  recomputeAggregates cfg t { s with
    players := s.players.map (fun kv =>
      (kv.1, { kv.2 with is_drafted := false, draft_price := none, drafted_by_team := none }))
    team_budgets := []
    my_team := { s.my_team with
      budget := s.my_team.total_budget
      roster := parsed.foldl (fun acc sl => acc.set sl none) []
      players_acquired := [] }
    draft_log := []
    raw_latest := none
    inflation_history := []
    newly_drafted := [] }

/-- DraftState._is_my_team: empty is never mine; otherwise the lowered,
stripped name must equal one of the comma-separated configured aliases. -/
def isMyTeam (cfg : Settings) (name : String) : Bool :=
  if name = "" then false
  else
    let name_lower := pyStrip (pyLower name)
    (splitChar ',' cfg.my_team_name).any (fun al => pyLower (pyStrip al) = name_lower)

/-- Python str() over an optional id (str(None) is the string None). -/
def pyStrOpt : Option PyId → String
  | none => "None"
  | some i => i.str

/-- DraftState._resolve_team_name. -/
def resolveTeamName (team_id : Option PyId) (teams : List TeamInfo) : Option String :=
  match team_id with
  | none => none
  | some tid =>
    if tid.str ∈ ["null", "undefined", "None", ""] then none
    else
      match teams.find? (fun tm => pyStrOpt tm.teamId = tid.str) with
      | some tm => some tm.name
      | none => some tid.str

/-- DraftState._add_to_my_roster: slot a drafted player into the best open
slot (dedicated position, then non-bench flex, then the first open slot),
recording the acquisition; silently returns when no eligible slot is open. -/
def addToMyRoster (cfg : Settings) (entry : DraftLogEntry) (ps : PlayerState)
    (mt : MyTeamState) : MyTeamState :=
  let pos := ps.projection.position
  let open_slots := mt.open_slots_for_position pos cfg.SLOT_ELIGIBILITY
  if open_slots = [] then mt
  else
    let best₁ := open_slots.find? (fun slot => slotBaseType mt.slot_types slot = pos)
    let best₂ := match best₁ with
      | some sl => some sl
      | none => open_slots.find? (fun slot => slotBaseType mt.slot_types slot ≠ "BENCH")
    let best := match best₂ with
      | some sl => sl
      | none => open_slots.headD ""
    { mt with
      roster := mt.roster.set best (some entry.playerName)
      players_acquired := mt.players_acquired ++ [⟨entry.playerName, pos, entry.bidAmount⟩] }

/-- The players key one draft-log entry addresses: the exact normalized
name when it is a known key, the resolver's answer otherwise (falling back
to the normalized name). -/
def entryKey (players : Dict String PlayerState) (idx : ResolverIndex) (fz : FuzzyStep)
    (entry : DraftLogEntry) : String :=
  let nk₀ := stateNormalizeName entry.playerName
  if players.hasKey nk₀ then nk₀ else
    match resolve idx fz entry.playerName with
    | some r => r
    | none => nk₀

/-- One step of the newly-drafted marking loop in
DraftState.update_from_draft_event, folding (players, my_team). -/
def markSaleStep (cfg : Settings) (idx : ResolverIndex) (fz : FuzzyStep)
    (teams : List TeamInfo) (acc : Dict String PlayerState × MyTeamState)
    (entry : DraftLogEntry) : Dict String PlayerState × MyTeamState :=
  let name_key := entryKey acc.1 idx fz entry
  match acc.1.get? name_key with
  | none => acc
  | some ps =>
    if ps.is_drafted then acc
    else
      let team_name := resolveTeamName entry.teamId teams
      let ps' := { ps with
        is_drafted := true
        draft_price := some entry.bidAmount
        drafted_by_team := team_name }
      let players' := acc.1.set name_key ps'
      let mt' := match team_name with
        | some nm => if nm ≠ "" ∧ isMyTeam cfg nm then addToMyRoster cfg entry ps' acc.2 else acc.2
        | none => acc.2
      (players', mt')

/-- The team-budget dict rebuilt from an update's team list (keyed by name,
falling back to a truthy team id when the name is a known placeholder). -/
def newBudgets (teams : List TeamInfo) : Dict String ℤ :=
  teams.foldl
    (fun acc team =>
      let nameOpt : Option String :=
        if team.name ∈ ["Unknown", "null", "undefined", "None", ""] then
          match team.teamId with
          | some tid => if tid.truthy then some tid.str else none
          | none => none
        else some team.name
      match nameOpt, team.remainingBudget with
      | some nm, some rb => if nm ≠ "" then acc.set nm rb else acc
      | _, _ => acc)
    []

/-- The first half of DraftState.update_from_draft_event: stash the raw
payload and replace the tracked team budgets wholesale when the update
carries any. -/
def applyRawAndBudgets (u : DraftUpdate) (s : DraftState) : DraftState :=
  let s := { s with raw_latest := some u }
  let nb := newBudgets u.teams
  if nb ≠ [] then { s with team_budgets := nb } else s

/-- The my-team budget loop of DraftState.update_from_draft_event: the last
my-team entry carrying a remaining budget wins. -/
def myBudgetFold (cfg : Settings) (teams : List TeamInfo) (b : ℤ) : ℤ :=
  teams.foldl
    (fun b team =>
      if isMyTeam cfg team.name then
        match team.remainingBudget with
        | some rb => rb
        | none => b
      else b)
    b

/-- The sale-marking fold of DraftState.update_from_draft_event, started
from the budget-refreshed state. -/
def updateMarkFold (cfg : Settings) (fz : FuzzyStep) (u : DraftUpdate) (s : DraftState) :
    Dict String PlayerState × MyTeamState :=
  u.draftLog.foldl
    (markSaleStep cfg (applyRawAndBudgets u s).resolverIndex fz u.teams)
    ((applyRawAndBudgets u s).players, (applyRawAndBudgets u s).my_team)

/-- Everything DraftState.update_from_draft_event does before the aggregate
recompute: raw payload, team budgets, sale marking, my-team budget, and the
cumulative draft log. -/
def updateStage1 (cfg : Settings) (fz : FuzzyStep) (u : DraftUpdate) (s : DraftState) :
    DraftState :=
  { applyRawAndBudgets u s with
    players := (updateMarkFold cfg fz u s).1
    my_team := { (updateMarkFold cfg fz u s).2 with
      budget := myBudgetFold cfg u.teams (updateMarkFold cfg fz u s).2.budget }
    draft_log := u.draftLog }

/-- DraftState.update_from_draft_event: idempotent ingestion of one
cumulative extension update (t is the wall-clock instant of the embedded
recompute). -/
def DraftState.update_from_draft_event (cfg : Settings) (fz : FuzzyStep) (t : ℚ)
    (u : DraftUpdate) (s : DraftState) : DraftState :=
  let previously_drafted : List String :=
    (s.players.filter (fun kv => kv.2.is_drafted)).map Prod.fst
  let s := recomputeAggregates cfg t (updateStage1 cfg fz u s)
  let s := { s with
    newly_drafted :=
      ((s.players.filter (fun kv => kv.2.is_drafted ∧ kv.1 ∉ previously_drafted)).map
        Prod.snd) }
  if u.rosters ≠ [] ∧ u.teams ≠ [] then
    { s with opponent_tracker :=
        s.opponent_tracker.update_from_rosters cfg u.rosters u.teams cfg.my_team_name }
  else s

/-- The canonical players key DraftState.get_player reads (exact normalized
match first, resolver fallback second). -/
def DraftState.getPlayerKey (s : DraftState) (fz : FuzzyStep) (name : String) :
    Option String :=
  let key := stateNormalizeName name
  if s.players.hasKey key then some key
  else
    match resolve s.resolverIndex fz name with
    | some rk => if s.players.hasKey rk then some rk else none
    | none => none

/-- DraftState.get_player. -/
def DraftState.get_player (s : DraftState) (fz : FuzzyStep) (name : String) :
    Option PlayerState :=
  (s.getPlayerKey fz name).bind (fun k => s.players.get? k)

/-! ## engine.py -/

/-- engine.calculate_vorp: the pre-computed value. -/
def calculate_vorp (player : PlayerState) : ℚ := player.vorp

/-- engine.calculate_fmv: baseline AAV at the live inflation factor. -/
def calculate_fmv (player : PlayerState) (s : DraftState) : ℚ :=
  pyRound (player.projection.baseline_aav * s.inflation_factor) 1

/-- engine.calculate_scarcity_multiplier: coarse step premium as a
(position, tier) group gets drafted out. -/
def calculate_scarcity_multiplier (player : PlayerState) (s : DraftState) : ℚ :=
  let pos := player.projection.position
  let tier := player.projection.tier
  let same_group := s.players.values.filter
    (fun q => q.projection.position = pos ∧ q.projection.tier = tier)
  if same_group = [] then 1
  else
    let drafted_pct : ℚ :=
      ((same_group.filter (fun q => q.is_drafted)).length : ℚ) / (same_group.length : ℚ)
    if drafted_pct ≥ 85 / 100 then 13 / 10
    else if drafted_pct ≥ 7 / 10 then 115 / 100
    else if drafted_pct ≥ 1 / 2 then 105 / 100
    else 1

/-- engine.calculate_need_multiplier: 1.0 when an open starter (non-bench)
slot accepts the position, 0.0 otherwise. -/
def calculate_need_multiplier (cfg : Settings) (player : PlayerState)
    (s : DraftState) : ℚ :=
  let open_slots :=
    s.my_team.open_slots_for_position player.projection.position cfg.SLOT_ELIGIBILITY
  if open_slots = [] then 0
  else if (open_slots.filter
      (fun sl => slotBaseType s.my_team.slot_types sl ≠ "BENCH")) = [] then 0
  else 1

/-- engine._has_only_bench_slots. -/
def hasOnlyBenchSlots (cfg : Settings) (player : PlayerState) (s : DraftState) : Bool :=
  let open_slots :=
    s.my_team.open_slots_for_position player.projection.position cfg.SLOT_ELIGIBILITY
  if open_slots = [] then false
  else open_slots.all (fun sl => slotBaseType s.my_team.slot_types sl = "BENCH")

/-- engine.calculate_strategy_multiplier. -/
def calculate_strategy_multiplier (cfg : Settings) (player : PlayerState) : ℚ :=
  let pos_w := (cfg.active_strategy.position_weights.get? player.projection.position).getD 1
  let tier_w := (cfg.active_strategy.tier_weights.get? player.projection.tier).getD 1
  pyRound (pos_w * tier_w) 3

/-- engine.calculate_max_bid. -/
def calculate_max_bid (my_team : MyTeamState) : ℤ := my_team.max_bid

/-- engine.get_engine_advice: the pure buy/pass/price-enforce recommendation
(rationale strings elided; every numeric and action field kept). -/
def get_engine_advice (cfg : Settings) (fz : FuzzyStep) (player_name : String)
    (current_bid : ℚ) (s : DraftState) : EngineAdvice :=
  match s.get_player fz player_name with
  | none =>
    { action := .PASS
      max_bid := 0
      fmv := 0
      inflation_rate := s.inflation_factor
      scarcity_multiplier := 1
      vorp := 0 }
  | some player =>
    let vorp := calculate_vorp player
    let vn := calculate_vona player s
    let fmv := calculate_fmv player s
    let scarcity := calculate_scarcity_multiplier player s
    let need := calculate_need_multiplier cfg player s
    let bench_only := hasOnlyBenchSlots cfg player s
    let inflation := s.inflation_factor
    let strat_mult := calculate_strategy_multiplier cfg player
    let adjusted_fmv := pyRound (fmv * scarcity * need * strat_mult) 1
    let market_fmv := pyRound (fmv * scarcity * strat_mult) 1
    let budget_max := calculate_max_bid s.my_team
    let pos := player.projection.position
    let am : AdviceAction × ℤ :=
      if need = 0 ∧ current_bid > 0 ∧ vorp > 0 ∧ current_bid < market_fmv then
        (.PRICE_ENFORCE, min (pyInt market_fmv) budget_max)
      else if need = 0 ∧ bench_only then (.PASS, 0)
      else if need = 0 then (.PASS, 0)
      else if current_bid ≤ 0 then
        (if vorp > 0 then .BUY else .PASS, min (pyInt adjusted_fmv) budget_max)
      else if current_bid > adjusted_fmv * (115 / 100) then
        (.PASS, min (pyInt adjusted_fmv) budget_max)
      else if current_bid > adjusted_fmv ∧ vorp > 0 then
        (.BUY, min (pyInt (adjusted_fmv * (11 / 10))) budget_max)
      else if vorp > 0 then (.BUY, min (pyInt adjusted_fmv) budget_max)
      else (.PASS, min (pyInt adjusted_fmv) budget_max)
    let demand := s.opponent_tracker.get_position_demand cfg pos
      (s.get_remaining_players (some pos)).length
    { action := am.1
      max_bid := am.2
      fmv := market_fmv
      inflation_rate := inflation
      scarcity_multiplier := scarcity
      vorp := vorp
      vona := vn.1
      vona_next_player := vn.2
      adp_value := player.adp_value
      opponent_demand := some demand
      strategy_multiplier := strat_mult }

/-! ## models.py: positional need summaries and the starter-need call -/

/-- Ascending stable sort of strings (Python sorted() over code points; the
position names here are ASCII). -/
def sortStrAsc (l : List String) : List String :=
  List.insertionSort (fun a b : String => a ≤ b) l

/-- MyTeamState.positional_need_summary: for every position appearing in
some eligibility list (sorted), the number of open slots accepting it. -/
def MyTeamState.positional_need_summary (t : MyTeamState)
    (slot_eligibility : Dict String (List String)) : Dict String ℕ :=
  let positions :=
    slot_eligibility.values.foldl (fun acc l => acc ++ l.filter (fun p => p ∉ acc)) []
  (sortStrAsc positions).map
    (fun pos => (pos, (t.open_slots_for_position pos slot_eligibility).length))

/-- The runtime errors the embedding distinguishes. -/
inductive PyError where
  | attributeError
  | typeError
  deriving Repr, DecidableEq

/-- The parameter names of MyTeamState.positional_need_summary besides self
(models.py gives it exactly one, and no generic keyword catch-all). -/
def positionalNeedSummaryParams : List String := ["slot_eligibility"]

/-- A Python call of positional_need_summary passing the eligibility table
positionally plus the named extra keyword arguments: CPython raises
TypeError when a keyword matches no declared parameter. -/
def callPositionalNeedSummary (t : MyTeamState)
    (slot_eligibility : Dict String (List String)) (extraKeywords : List String) :
    Except PyError (Dict String ℕ) :=
  if extraKeywords.all (fun k => k ∈ positionalNeedSummaryParams) then
    .ok (t.positional_need_summary slot_eligibility)
  else .error .typeError

/-- DraftState.get_positional_need. -/
def DraftState.get_positional_need (cfg : Settings) (s : DraftState) : Dict String ℕ :=
  s.my_team.positional_need_summary cfg.SLOT_ELIGIBILITY

/-- DraftState.get_starter_need: state.py passes exclude_bench=True as a
keyword argument into positional_need_summary. -/
def DraftState.get_starter_need (cfg : Settings) (s : DraftState) :
    Except PyError (Dict String ℕ) :=
  callPositionalNeedSummary s.my_team cfg.SLOT_ELIGIBILITY ["exclude_bench"]

/-! ## event_store.py -/

/-- One physical line of the event-log file as the replay/open scanners see
it. A record line is a valid JSON object carrying its numeric seq field (or
none) and an opaque fingerprint of the remaining content; the log writer
only ever writes integer seq values, and objects with a non-numeric seq are
outside this model. A scalar line is valid JSON that is not an object. -/
inductive LogLine where
  | blank
  | corrupt (raw : String)
  | scalar (raw : String)
  | record (seq : Option ℤ) (rest : String)
  deriving Repr, DecidableEq

/-- The log file as the store sees it: none when the path never existed. -/
abbrev LogFile := Option (List LogLine)

/-- The parse of the non-blank lines during replay: Sum.inl for a valid
JSON value that is not an object, Sum.inr for a record. -/
def replayParsedEvents (lines : List LogLine) : List (String ⊕ (Option ℤ × String)) :=
  lines.filterMap (fun l =>
    match l with
    | .blank => none
    | .corrupt _ => none
    | .scalar raw => some (.inl raw)
    | .record seq rest => some (.inr (seq, rest)))

/-- The sort key e.get("seq", 0) of a replayed record. -/
def seqKey (r : Option ℤ × String) : ℤ := r.1.getD 0

/-- EventStore.replay: nonexistent path replays empty; otherwise parse every
non-blank line, skip JSON-decode failures, and sort by the seq key.
list.sort's key function dereferences .get on every kept event, so a kept
non-object event raises AttributeError. -/
def EventStore.replay (file : LogFile) : Except PyError (List (Option ℤ × String)) :=
  match file with
  | none => .ok []
  | some lines =>
    let evs := replayParsedEvents lines
    if evs.any (fun e => e.isLeft) then .error .attributeError
    else
      .ok (List.insertionSort (fun a b => seqKey a ≤ seqKey b)
        (evs.filterMap (fun e => e.getRight?)))

/-- The resumed sequence counter EventStore.open computes by scanning the
existing file: one increment per non-blank line. -/
def EventStore.openSeqCount (lines : List LogLine) : ℕ :=
  (lines.filter (fun l =>
    match l with
    | .blank => false
    | _ => true)).length

/-- The sequence counter the repository's own test suite and the spec call
for: one increment per valid record line. -/
def EventStore.validRecordCount (lines : List LogLine) : ℕ :=
  (lines.filter (fun l =>
    match l with
    | .record _ _ => true
    | _ => false)).length

/-! ## server.py: the manual-override mutation branches -/

/-- Outcome of a mutating manual directive: the next state, whether the
directive succeeded, and the players key it touched. -/
structure ManualResult where
  state : DraftState
  ok : Bool
  key : Option String
  deriving Repr

/-- The team label the sold branch records (f-string over the optional
matched team id). -/
def soldTeamLabel : Option ℕ → String
  | some tid => "Team #" ++ toString tid
  | none => "Unknown Team"

/-- The sold branch of server.manual_override, after the name/price/team-id
regex matched (regex parsing elided; price and the optional team id are the
matched digit groups). -/
def manualSold (cfg : Settings) (fz : FuzzyStep) (t : ℚ) (player_name : String)
    (price : ℕ) (team_id : Option ℕ) (s : DraftState) : ManualResult :=
  match s.getPlayerKey fz player_name with
  | none => ⟨s, false, none⟩
  | some k =>
    match s.players.get? k with
    | none => ⟨s, false, none⟩
    | some ps =>
      if ps.is_drafted then ⟨s, false, some k⟩
      else
        let ps' := { ps with
          is_drafted := true
          draft_price := some (price : ℤ)
          drafted_by_team := some (soldTeamLabel team_id) }
        ⟨recomputeAggregates cfg t { s with players := s.players.set k ps' }, true, some k⟩

/-- The undo branch of server.manual_override. -/
def manualUndo (cfg : Settings) (fz : FuzzyStep) (t : ℚ) (player_name : String)
    (s : DraftState) : ManualResult :=
  match s.getPlayerKey fz player_name with
  | none => ⟨s, false, none⟩
  | some k =>
    match s.players.get? k with
    | none => ⟨s, false, none⟩
    | some ps =>
      if !ps.is_drafted then ⟨s, false, some k⟩
      else
        let display := ps.projection.player_name
        let ps' := { ps with
          is_drafted := false
          draft_price := none
          drafted_by_team := none }
        let roster' := s.my_team.roster.map (fun kv =>
          match kv.2 with
          | some occ =>
            if occ ≠ "" ∧ pyLower occ = pyLower display then (kv.1, none) else kv
          | none => kv)
        let acquired' := s.my_team.players_acquired.filter
          (fun a => pyLower a.name ≠ pyLower display)
        let s' := recomputeAggregates cfg t { s with
          players := s.players.set k ps'
          my_team := { s.my_team with roster := roster', players_acquired := acquired' } }
        ⟨s', true, some k⟩

/-- The budget branch of server.manual_override: set my budget directly and
mirror it onto the tracked budget entry whose key matches the configured
team-name string. -/
def manualBudget (cfg : Settings) (t : ℚ) (new_budget : ℕ) (s : DraftState) : DraftState :=
  let myNameKey := pyStrip (pyLower cfg.my_team_name)
  recomputeAggregates cfg t { s with
    my_team := { s.my_team with budget := (new_budget : ℤ) }
    team_budgets := s.team_budgets.map (fun kv =>
      if pyStrip (pyLower kv.1) = myNameKey then (kv.1, (new_budget : ℤ)) else kv) }

/-! ## Reachable draft states -/

/-- The states the store can be in after the one-time load and any sequence
of the mutating operations (extension updates, reset, and the mutating
manual directives), for a fixed configuration and fuzzy scorer. -/
inductive Reachable (cfg : Settings) (fz : FuzzyStep) : DraftState → Prop
  | load (t : ℚ) (rows : List PlayerProjection) :
      Reachable cfg fz (loadRows cfg t rows (initState cfg))
  | update (t : ℚ) (u : DraftUpdate) (s : DraftState) :
      Reachable cfg fz s → Reachable cfg fz (s.update_from_draft_event cfg fz t u)
  | reset (t : ℚ) (s : DraftState) :
      Reachable cfg fz s → Reachable cfg fz (s.reset cfg t)
  | sold (t : ℚ) (nm : String) (price : ℕ) (tid : Option ℕ) (s : DraftState) :
      Reachable cfg fz s → Reachable cfg fz (manualSold cfg fz t nm price tid s).state
  | undo (t : ℚ) (nm : String) (s : DraftState) :
      Reachable cfg fz s → Reachable cfg fz (manualUndo cfg fz t nm s).state
  | budget (t : ℚ) (n : ℕ) (s : DraftState) :
      Reachable cfg fz s → Reachable cfg fz (manualBudget cfg t n s)

/-! ## Association-list lemmas -/

namespace Dict

variable {α β : Type} [DecidableEq α] {d : Dict α β} {k k' : α} {v : β}

theorem get?_set_self (d : Dict α β) (k : α) (v : β) : (d.set k v).get? k = some v := by
  induction d with
  | nil => simp [set, get?]
  | cons hd tl ih =>
    by_cases h : hd.1 = k
    · simp [set, get?, h]
    · simp [set, get?, h, ih]

theorem get?_set_ne (d : Dict α β) (h : k' ≠ k) (v : β) :
    (d.set k v).get? k' = d.get? k' := by
  induction d with
  | nil =>
    simp only [set, get?]
    rw [if_neg (fun hh => h hh.symm)]
  | cons hd tl ih =>
    by_cases hk : hd.1 = k
    · subst hk
      simp only [set, if_pos rfl, get?]
      rw [if_neg (fun hh => h hh.symm), if_neg (fun hh => h hh.symm)]
    · simp only [set, if_neg hk, get?]
      by_cases hk' : hd.1 = k'
      · rw [if_pos hk', if_pos hk']
      · rw [if_neg hk', if_neg hk', ih]

theorem set_get?_self (h : d.get? k = some v) : d.set k v = d := by
  induction d with
  | nil => simp [get?] at h
  | cons hd tl ih =>
    by_cases hk : hd.1 = k
    · simp [get?, hk] at h
      cases hd
      simp_all [set]
    · simp [get?, hk] at h
      simp [set, hk, ih h]

theorem keys_set_of_mem (h : d.get? k = some v) (v' : β) :
    (d.set k v').keys = d.keys := by
  induction d with
  | nil => simp [get?] at h
  | cons hd tl ih =>
    by_cases hk : hd.1 = k
    · simp [set, keys, hk]
    · simp only [get?, if_neg hk] at h
      simp only [set, if_neg hk, keys, List.map_cons, List.cons.injEq, true_and]
      have := ih h
      simpa [keys] using this

theorem set_set_same (d : Dict α β) (k : α) (v v' : β) :
    (d.set k v).set k v' = d.set k v' := by
  induction d with
  | nil => simp [set]
  | cons hd tl ih =>
    by_cases hk : hd.1 = k
    · simp [set, hk]
    · simp [set, hk, ih]

theorem get?_eq_none_of_not_mem (h : k ∉ d.keys) : d.get? k = none := by
  induction d with
  | nil => simp [get?]
  | cons hd tl ih =>
    simp only [keys, List.map_cons, List.mem_cons, not_or] at h
    rw [get?, if_neg (fun hh => h.1 hh.symm)]
    exact ih (by simpa [keys] using h.2)

theorem hasKey_iff_mem_keys : d.hasKey k = true ↔ k ∈ d.keys := by
  induction d with
  | nil => simp [hasKey, get?, keys]
  | cons hd tl ih =>
    by_cases hk : hd.1 = k
    · simp [hasKey, get?, keys, hk]
    · have hk' : ¬(k = hd.1) := fun hh => hk hh.symm
      simp only [hasKey, get?, if_neg hk, keys, List.map_cons, List.mem_cons, hk',
        false_or] at ih ⊢
      exact ih

theorem hasKey_congr_keys {d' : Dict α β} (h : d.keys = d'.keys) (k : α) :
    d.hasKey k = d'.hasKey k := by
  have h1 : d.hasKey k = true ↔ k ∈ d'.keys := by rw [← h]; exact hasKey_iff_mem_keys
  have h2 : d'.hasKey k = true ↔ k ∈ d'.keys := hasKey_iff_mem_keys
  cases hb2 : d'.hasKey k with
  | false =>
    cases hb1 : d.hasKey k with
    | false => rfl
    | true => exact absurd (h2.mpr (h1.mp hb1)) (by simp [hb2])
  | true =>
    cases hb1 : d.hasKey k with
    | false => exact absurd (h1.mpr (h2.mp hb2)) (by simp [hb1])
    | true => rfl

end Dict

/-! ## Shared concrete instances for witnesses and counterexamples -/

/-- A fuzzy scorer that never clears the threshold (the resolver's exact
path alone decides the outcomes below). -/
def noFuzzy : FuzzyStep := fun _ => none

/-- The default configuration (football defaults of config.Settings). -/
def defaultSettings : Settings := {}

/-! ## C10: get_starter_need always raises TypeError -/

/-- C10: for every configuration and state, DraftState.get_starter_need
raises TypeError and never returns a starter-need summary, because it passes
the exclude_bench keyword that MyTeamState.positional_need_summary does not
accept. -/
theorem get_starter_need_raises_TypeError (cfg : Settings) (s : DraftState) :
    s.get_starter_need cfg = .error .typeError := rfl

/-! ## C7: open() resumes the sequence counter over all non-blank lines -/

/-- The log file of the repository's own regression test
test_open_sequence_skips_malformed_lines: a valid record, a malformed line,
and a second valid record. -/
def c7TestFile : List LogLine :=
  [.record (some 1) "type good", .corrupt "MALFORMED LINE", .record (some 2) "type good"]

/-- C7 (code bug): EventStore.open counts every non-blank line while
resuming the sequence counter, so on the test file with one malformed line
it resumes at 3, not at the 2 valid records the spec and the repository's
own test require. -/
theorem open_counts_malformed_lines :
    EventStore.openSeqCount c7TestFile = 3 ∧
      EventStore.validRecordCount c7TestFile = 2 := by decide

/-! ## C6: replay over interleaved valid and corrupted lines -/

/-- Does a log line hold valid JSON that is not an object? -/
def LogLine.isScalar : LogLine → Bool
  | .scalar _ => true
  | _ => false

/-- The record lines of a log file, in file order. -/
def validRecordsOf (lines : List LogLine) : List (Option ℤ × String) :=
  lines.filterMap (fun l =>
    match l with
    | .record seq rest => some (seq, rest)
    | _ => none)

/-- A log file interleaving a valid record, a corrupted line, and a line
that is valid JSON but not an object (for example a bare number). -/
def c6MixedFile : List LogLine :=
  [.record (some 1) "type good", .corrupt "\x7binvalid json", .scalar "5"]

/-- C6 (counterexample): a line holding valid JSON that is not an object is
kept by the JSON-decode pass and then crashes the seq-key sort, so replay
raises AttributeError instead of returning the valid records: the claim is
false for this log file of interleaved valid JSON lines and corrupted
lines. -/
theorem replay_raises_on_nonobject_line :
    EventStore.replay (some c6MixedFile) = .error .attributeError := rfl

/-- The filterMap composition behind replay: with scalars or without, the
kept events in file order are exactly the record lines. -/
theorem replay_kept_records (lines : List LogLine) :
    (replayParsedEvents lines).filterMap (fun e => e.getRight?) = validRecordsOf lines := by
  induction lines with
  | nil => rfl
  | cons hd tl ih =>
    cases hd <;> simp [replayParsedEvents, validRecordsOf, List.filterMap_cons] at ih ⊢ <;>
      exact ih

/-- C6 (amended): when every valid line of the file parses to a JSON object
(the log writer's record format), replay returns without raising exactly
the valid records, ordered by ascending sequence number, and replay on a
path that never existed returns the empty sequence. A valid JSON line that
is not an object instead raises (see the counterexample). -/
theorem replay_valid_subset_sorted (lines : List LogLine)
    (h : ∀ l ∈ lines, l.isScalar = false) :
    ∃ evs, EventStore.replay (some lines) = .ok evs ∧
      evs.Perm (validRecordsOf lines) ∧
      evs.Sorted (fun a b => seqKey a ≤ seqKey b) ∧
      EventStore.replay (none : LogFile) = .ok [] := by
  have hnol : ∀ e ∈ replayParsedEvents lines, e.isLeft = false := by
    intro e he
    rcases List.mem_filterMap.mp he with ⟨l, hl, hfl⟩
    cases l with
    | blank => simp at hfl
    | corrupt raw => simp at hfl
    | scalar raw => exact absurd (h _ hl) (by simp [LogLine.isScalar])
    | record seq rest => cases hfl; rfl
  have hany : (replayParsedEvents lines).any (fun e => e.isLeft) = false := by
    rw [List.any_eq_false]
    intro e he
    simp [hnol e he]
  refine ⟨List.insertionSort (fun a b => seqKey a ≤ seqKey b)
    ((replayParsedEvents lines).filterMap (fun e => e.getRight?)), ?_, ?_, ?_, rfl⟩
  · simp only [EventStore.replay, hany, Bool.false_eq_true, if_false]
  · rw [replay_kept_records]
    exact List.perm_insertionSort _ _
  · haveI : IsTotal (Option ℤ × String) (fun a b => seqKey a ≤ seqKey b) :=
      ⟨fun a b => Int.le_total _ _⟩
    haveI : IsTrans (Option ℤ × String) (fun a b => seqKey a ≤ seqKey b) :=
      ⟨fun _ _ _ hab hbc => le_trans hab hbc⟩
    exact List.sorted_insertionSort _ _

/-- A witness file for C6: two record lines out of order around a corrupted
line; the hypotheses of the amended theorem hold and replay sorts the two
records. -/
def c6WitnessFile : List LogLine :=
  [.record (some 2) "type b", .corrupt "THIS IS NOT VALID JSON", .record (some 1) "type a"]

/-- C6 witness: the amended replay theorem applied to the witness file. -/
theorem replay_valid_subset_sorted_witness :
    (∀ l ∈ c6WitnessFile, l.isScalar = false) ∧
      (∃ evs, EventStore.replay (some c6WitnessFile) = .ok evs ∧
        evs.Perm (validRecordsOf c6WitnessFile) ∧
        evs.Sorted (fun a b => seqKey a ≤ seqKey b) ∧
        EventStore.replay (none : LogFile) = .ok []) :=
  ⟨by decide, replay_valid_subset_sorted c6WitnessFile (by decide)⟩

/-! ## C5: the need multiplier -/

/-- A roster whose only open slot for QB is a bench slot. -/
def c5Team : MyTeamState :=
  { team_name := "My Team"
    budget := 100
    total_budget := 200
    roster := [("QB", some "Jalen Hurts"), ("BENCH1", none)]
    players_acquired := []
    slot_types := [("QB", "QB"), ("BENCH1", "BENCH")] }

/-- The state around c5Team. -/
def c5State : DraftState := { my_team := c5Team }

/-- A quarterback to evaluate against c5State. -/
def c5Player : PlayerState :=
  { projection :=
      { player_name := "Josh Allen", position := "QB",
        projected_points := 300, baseline_aav := 40, tier := 1 } }

/-- C5 (counterexample): with only a bench slot open for QB, a roster slot
can accept the position yet the need multiplier is 0.0 — not the reduced
non-zero value the claim describes — so the multiplier is not 0.0 exactly
when no slot of any kind accepts the position. -/
theorem need_multiplier_zero_with_open_bench_slot :
    calculate_need_multiplier defaultSettings c5Player c5State = 0 ∧
      c5State.my_team.open_slots_for_position "QB" defaultSettings.SLOT_ELIGIBILITY ≠ [] := by
  constructor
  · decide
  · decide

/-- C5 (amended): the need multiplier is binary: it is 0.0 exactly when no
open non-bench (starter) slot accepts the player's position — in particular
also when only bench slots remain open — and it is exactly 1.0 otherwise,
with no urgency boost of any size. -/
theorem need_multiplier_binary (cfg : Settings) (p : PlayerState) (s : DraftState) :
    (calculate_need_multiplier cfg p s = 0 ↔
      (s.my_team.open_slots_for_position p.projection.position cfg.SLOT_ELIGIBILITY).filter
        (fun sl => slotBaseType s.my_team.slot_types sl ≠ "BENCH") = []) ∧
    (calculate_need_multiplier cfg p s = 0 ∨ calculate_need_multiplier cfg p s = 1) := by
  by_cases h1 :
      (s.my_team.open_slots_for_position p.projection.position cfg.SLOT_ELIGIBILITY) = []
  · have hm : calculate_need_multiplier cfg p s = 0 := by
      simp only [calculate_need_multiplier]
      rw [if_pos h1]
    have hf : (s.my_team.open_slots_for_position p.projection.position
        cfg.SLOT_ELIGIBILITY).filter
        (fun sl => slotBaseType s.my_team.slot_types sl ≠ "BENCH") = [] := by
      rw [h1]; rfl
    exact ⟨⟨fun _ => hf, fun _ => hm⟩, Or.inl hm⟩
  · by_cases h2 :
        (s.my_team.open_slots_for_position p.projection.position cfg.SLOT_ELIGIBILITY).filter
          (fun sl => slotBaseType s.my_team.slot_types sl ≠ "BENCH") = []
    · have hm : calculate_need_multiplier cfg p s = 0 := by
        simp only [calculate_need_multiplier]
        rw [if_neg h1, if_pos h2]
      exact ⟨⟨fun _ => h2, fun _ => hm⟩, Or.inl hm⟩
    · have hm : calculate_need_multiplier cfg p s = 1 := by
        simp only [calculate_need_multiplier]
        rw [if_neg h1, if_neg h2]
      refine ⟨⟨fun h0 => absurd (hm ▸ h0 : (1 : ℚ) = 0) one_ne_zero,
        fun hf => absurd hf h2⟩, Or.inr hm⟩

/-! ## C3: the budget invariant -/

/-- C3 (amended, second conjunct): the maximum affordable bid never exceeds
the current budget, for every team state. -/
theorem max_bid_le_budget (t : MyTeamState) : t.max_bid ≤ t.budget := by
  simp only [MyTeamState.max_bid]
  split_ifs <;> omega

/-- A reachable state produced by the manual directive budget 42 right
after loading an empty projection sheet: no acquisitions were recorded, yet
the budget is 42, not the full 200. -/
def c3State : DraftState :=
  manualBudget defaultSettings 0 42 (loadRows defaultSettings 0 [] (initState defaultSettings))

/-- C3 (counterexample): in the reachable state c3State the own-team budget
(42) differs from total budget minus the sum of recorded acquisition prices
(200 - 0): the budget is taken from reports and directives, not maintained
as an identity. -/
theorem budget_identity_fails_after_manual_budget :
    Reachable defaultSettings noFuzzy c3State ∧
      ¬(c3State.my_team.budget = c3State.my_team.total_budget -
        (c3State.my_team.players_acquired.map (fun a => a.price)).sum) :=
  ⟨Reachable.budget 0 42 _ (Reachable.load 0 []), by decide⟩

/-! ## C4: the advice ceiling against the affordable maximum -/

/-- C4 (amended): every branch of get_engine_advice returns a recommended
ceiling of at most the maximum affordable bid or 0 (the PASS branches and
the unknown-player branch report 0 even when the computed affordable
maximum is negative), i.e. max_bid is bounded by max(team max bid, 0). -/
theorem advice_max_bid_bounded (cfg : Settings) (fz : FuzzyStep) (player_name : String)
    (current_bid : ℚ) (s : DraftState) :
    (get_engine_advice cfg fz player_name current_bid s).max_bid ≤
      max s.my_team.max_bid 0 := by
  cases hp : s.get_player fz player_name with
  | none =>
    simp only [get_engine_advice, hp]
    exact le_max_right _ _
  | some player =>
    simp only [get_engine_advice, hp, calculate_max_bid]
    split_ifs <;>
      first
        | exact le_max_right _ _
        | exact le_trans (min_le_right _ _) (le_max_left _ _)

/-- A reachable state with budget 0 and ten empty roster slots: the
computed maximum affordable bid is -9. -/
def c4State : DraftState :=
  manualBudget defaultSettings 0 0 (loadRows defaultSettings 0 [] (initState defaultSettings))

/-- C4 (counterexample): in the reachable state c4State, the advice for an
unknown player reports max_bid 0, which exceeds the team's computed maximum
affordable bid of -9: the claim fails as stated. -/
theorem advice_max_bid_exceeds_affordable_max :
    Reachable defaultSettings noFuzzy c4State ∧
      ¬((get_engine_advice defaultSettings noFuzzy "Nobody" 5 c4State).max_bid ≤
        c4State.my_team.max_bid) :=
  ⟨Reachable.budget 0 0 _ (Reachable.load 0 []), by decide⟩

/-! ## C8: fuzzy resolution of a generational-suffix variant -/

/-- The projection row for the canonical pool name Travis Etienne. -/
def etienneRow : PlayerProjection :=
  { player_name := "Travis Etienne", position := "RB",
    projected_points := 220, baseline_aav := 35, tier := 2 }

/-- The pool after loading the single Travis Etienne row. -/
def c8Pool : DraftState := loadRows defaultSettings 0 [etienneRow] (initState defaultSettings)

/-- An extension update whose sale entry names Travis Etienne Jr. -/
def etienneUpdate : DraftUpdate :=
  { teams := []
    draftLog :=
      [{ playerName := "Travis Etienne Jr.", teamId := some (.inr 4), bidAmount := 30 }]
    rosters := [] }

/-- C8: with the pool containing canonical name Travis Etienne, an incoming
sale entry naming Travis Etienne Jr. resolves to the canonical player
(normalization lowercases, strips punctuation and the generational suffix)
and update ingestion marks that player drafted at the sale price — for any
behaviour of the fuzzy-similarity fallback, which is never consulted. -/
theorem fuzzy_suffix_sale_marks_drafted (fz : FuzzyStep) :
    resolve c8Pool.resolverIndex fz "Travis Etienne Jr." = some "travis etienne" ∧
      ((c8Pool.update_from_draft_event defaultSettings fz 0 etienneUpdate).players.get?
          "travis etienne").map (fun ps => (ps.is_drafted, ps.draft_price)) =
        some (true, some 30) := by
  constructor
  · rfl
  · rfl

/-! ## C9: the frame property of the manual sold directive -/

/-- The draft-relevant fields of a player other than the derived VONA pair
refreshed on every aggregate recompute. -/
def playerCore (ps : PlayerState) :
    PlayerProjection × Bool × Option ℤ × Option String × ℚ × Option ℚ :=
  (ps.projection, ps.is_drafted, ps.draft_price, ps.drafted_by_team, ps.vorp, ps.adp_value)

/-- Lookup through a key-preserving, core-preserving map. -/
theorem get?_map_core {α β γ : Type} [DecidableEq α] (core : β → γ) (f : α × β → α × β)
    (hk : ∀ kv, (f kv).1 = kv.1) (hc : ∀ kv, core (f kv).2 = core kv.2)
    (l : Dict α β) (k : α) :
    (Dict.get? (l.map f) k).map core = (Dict.get? l k).map core := by
  induction l with
  | nil => rfl
  | cons hd tl ih =>
    obtain ⟨a, b⟩ := hd
    have h1 : f (a, b) = (a, (f (a, b)).2) := Prod.ext (hk (a, b)) rfl
    rw [List.map_cons, h1]
    simp only [Dict.get?]
    by_cases hak : a = k
    · subst hak
      simp [hc]
    · simp [hak, ih]

/-- computeVonas rewrites only the VONA fields: the core of every player is
untouched, at every key. -/
theorem computeVonas_get?_core (s : DraftState) (k : String) :
    (Dict.get? (computeVonas s) k).map playerCore =
      (Dict.get? s.players k).map playerCore := by
  refine get?_map_core playerCore _ ?_ ?_ s.players k
  · intro kv
    by_cases hd : kv.2.is_drafted <;> simp [hd]
  · intro kv
    by_cases hd : kv.2.is_drafted <;> simp [hd, playerCore]

/-- Aggregate recomputation leaves my_team untouched. -/
theorem recompute_my_team (cfg : Settings) (t : ℚ) (s : DraftState) :
    (recomputeAggregates cfg t s).my_team = s.my_team := rfl

/-- Aggregate recomputation leaves the tracked team budgets untouched. -/
theorem recompute_team_budgets (cfg : Settings) (t : ℚ) (s : DraftState) :
    (recomputeAggregates cfg t s).team_budgets = s.team_budgets := rfl

/-- Aggregate recomputation touches only the VONA fields of the players. -/
theorem recompute_players_get?_core (cfg : Settings) (t : ℚ) (s : DraftState) (k : String) :
    (Dict.get? (recomputeAggregates cfg t s).players k).map playerCore =
      (Dict.get? s.players k).map playerCore := by
  simp only [recomputeAggregates]
  rw [computeVonas_get?_core]

/-- C9: a successful manual sold directive changes nothing but the named
player's is_drafted, draft_price and drafted_by_team fields and the derived
aggregates: my_team (roster, players_acquired, budget) and team_budgets are
returned unchanged — whatever team id the directive names — and every other
player keeps its core fields (only the derived VONA pair is refreshed). -/
theorem manual_sold_frame (cfg : Settings) (fz : FuzzyStep) (t : ℚ) (nm : String)
    (price : ℕ) (tid : Option ℕ) (s : DraftState)
    (h : (manualSold cfg fz t nm price tid s).ok = true) :
    (manualSold cfg fz t nm price tid s).state.my_team = s.my_team ∧
    (manualSold cfg fz t nm price tid s).state.team_budgets = s.team_budgets ∧
    ∃ k, (manualSold cfg fz t nm price tid s).key = some k ∧
      (∀ k', k' ≠ k →
        (Dict.get? (manualSold cfg fz t nm price tid s).state.players k').map playerCore =
          (Dict.get? s.players k').map playerCore) ∧
      ∃ ps, Dict.get? s.players k = some ps ∧ ps.is_drafted = false ∧
        (Dict.get? (manualSold cfg fz t nm price tid s).state.players k).map playerCore =
          some (playerCore { ps with
            is_drafted := true
            draft_price := some (price : ℤ)
            drafted_by_team := some (soldTeamLabel tid) }) := by
  unfold manualSold at h ⊢
  cases hk : s.getPlayerKey fz nm with
  | none =>
    simp only [hk] at h
    exact Bool.noConfusion h
  | some k =>
    simp only [hk] at h ⊢
    cases hp : Dict.get? s.players k with
    | none =>
      simp only [hp] at h
      exact Bool.noConfusion h
    | some ps =>
      simp only [hp] at h ⊢
      by_cases hd : ps.is_drafted
      · simp only [if_pos hd] at h
        exact Bool.noConfusion h
      · simp only [if_neg hd] at h ⊢
        refine ⟨recompute_my_team cfg t _, recompute_team_budgets cfg t _, k, rfl, ?_,
          ps, hp, by simpa using hd, ?_⟩
        · intro k' hk'
          rw [recompute_players_get?_core]
          dsimp only
          rw [Dict.get?_set_ne _ hk']
        · rw [recompute_players_get?_core]
          dsimp only
          rw [Dict.get?_set_self]
          rfl

/-- A two-player, one-opponent state for the C9 witness. -/
def c9State : DraftState :=
  { players :=
      [("bijan robinson",
        { projection :=
            { player_name := "Bijan Robinson", position := "RB",
              projected_points := 280, baseline_aav := 50, tier := 1 } }),
       ("puka nacua",
        { projection :=
            { player_name := "Puka Nacua", position := "WR",
              projected_points := 250, baseline_aav := 40, tier := 1 } })]
    team_budgets := [("Alice", 150)]
    my_team :=
      { team_name := "My Team"
        budget := 120
        total_budget := 200
        roster := [("RB1", none), ("WR1", none)]
        players_acquired := []
        slot_types := [("RB1", "RB"), ("WR1", "WR")] } }

/-- C9 witness: the frame theorem applied to the concrete directive
"Bijan Robinson 55 3" in c9State. -/
theorem manual_sold_frame_witness :
    (manualSold defaultSettings noFuzzy 0 "Bijan Robinson" 55 (some 3) c9State).ok = true ∧
      ((manualSold defaultSettings noFuzzy 0 "Bijan Robinson" 55 (some 3)
          c9State).state.my_team = c9State.my_team ∧
        (manualSold defaultSettings noFuzzy 0 "Bijan Robinson" 55 (some 3)
            c9State).state.team_budgets = c9State.team_budgets ∧
        ∃ k, (manualSold defaultSettings noFuzzy 0 "Bijan Robinson" 55 (some 3)
            c9State).key = some k ∧
          (∀ k', k' ≠ k →
            ((manualSold defaultSettings noFuzzy 0 "Bijan Robinson" 55 (some 3)
                c9State).state.players.get? k').map playerCore =
              (c9State.players.get? k').map playerCore) ∧
          ∃ ps, c9State.players.get? k = some ps ∧ ps.is_drafted = false ∧
            ((manualSold defaultSettings noFuzzy 0 "Bijan Robinson" 55 (some 3)
                c9State).state.players.get? k).map playerCore =
              some (playerCore { ps with
                is_drafted := true
                draft_price := some ((55 : ℕ) : ℤ)
                drafted_by_team := some (soldTeamLabel (some 3)) })) :=
  ⟨by decide, manual_sold_frame defaultSettings noFuzzy 0 "Bijan Robinson" 55 (some 3)
    c9State (by decide)⟩

/-! ## C2: aggregate consistency over reachable states -/

/-- remainingAAV is unchanged by a map that preserves drafted flags and
projections. -/
theorem remainingAAV_map (l : Dict String PlayerState)
    (f : String × PlayerState → String × PlayerState)
    (hd : ∀ kv, (f kv).2.is_drafted = kv.2.is_drafted)
    (hb : ∀ kv, (f kv).2.projection = kv.2.projection) :
    remainingAAV (l.map f) = remainingAAV l := by
  induction l with
  | nil => rfl
  | cons x tl ih =>
    simp only [remainingAAV, Dict.values, List.map_cons, List.filter_cons] at ih ⊢
    rw [hd x]
    by_cases hx : x.2.is_drafted
    · simp only [hx, Bool.not_true, Bool.false_eq_true, if_false]
      exact ih
    · simp only [hx, Bool.not_false, if_true, List.map_cons, List.sum_cons, hb x]
      rw [ih]

/-- The VONA refresh does not change remainingAAV. -/
theorem remainingAAV_computeVonas (s : DraftState) :
    remainingAAV (computeVonas s) = remainingAAV s.players := by
  unfold computeVonas
  refine remainingAAV_map s.players _ ?_ ?_
  · intro kv
    by_cases h : kv.2.is_drafted <;> simp [h]
  · intro kv
    by_cases h : kv.2.is_drafted <;> simp [h]

/-- What one aggregate recompute does to the inflation factor, the remaining
cash and the remaining AAV. -/
theorem recompute_inflation_spec (cfg : Settings) (t : ℚ) (s : DraftState) :
    (recomputeAggregates cfg t s).inflation_factor =
      (if remainingAAV s.players > 0 then
        remainingCash cfg s.team_budgets / remainingAAV s.players else 1) ∧
    (recomputeAggregates cfg t s).total_remaining_cash =
      remainingCash cfg s.team_budgets ∧
    remainingAAV (recomputeAggregates cfg t s).players = remainingAAV s.players := by
  refine ⟨rfl, rfl, ?_⟩
  simp only [recomputeAggregates]
  exact remainingAAV_computeVonas _

/-- The remaining AAV is nonnegative when every baseline market value is. -/
theorem remainingAAV_nonneg (l : Dict String PlayerState)
    (hb : ∀ kv ∈ l, 0 ≤ kv.2.projection.baseline_aav) : 0 ≤ remainingAAV l := by
  apply List.sum_nonneg
  intro x hx
  rcases List.mem_map.mp hx with ⟨ps, hps, hval⟩
  rcases List.mem_filter.mp hps with ⟨hmem, _⟩
  rcases List.mem_map.mp hmem with ⟨kv, hkv, hsnd⟩
  subst hval
  subst hsnd
  exact hb kv hkv

/-- Fresh out of a recompute, the inflation factor satisfies the published
formula stated over the resulting state's own fields. -/
theorem InflFormula_recompute (cfg : Settings) (t : ℚ) (mid : DraftState) :
    (recomputeAggregates cfg t mid).inflation_factor =
      if remainingAAV (recomputeAggregates cfg t mid).players > 0 then
        (recomputeAggregates cfg t mid).total_remaining_cash /
          remainingAAV (recomputeAggregates cfg t mid).players
      else 1 := by
  obtain ⟨h1, h2, h3⟩ := recompute_inflation_spec cfg t mid
  rw [h1, h2, h3]

/-- A lookup hit is a membership. -/
theorem Dict.get?_mem {α β : Type} [DecidableEq α] {d : Dict α β} {k : α} {v : β}
    (h : d.get? k = some v) : (k, v) ∈ d := by
  induction d with
  | nil => simp [Dict.get?] at h
  | cons hd tl ih =>
    by_cases hk : hd.1 = k
    · simp only [Dict.get?, if_pos hk] at h
      cases h
      subst hk
      exact List.mem_cons_self _ _
    · simp only [Dict.get?, if_neg hk] at h
      exact List.mem_cons_of_mem _ (ih h)

/-- Members of d.set k v are members of d or the pair (k, v) itself. -/
theorem Dict.mem_set {α β : Type} [DecidableEq α] {d : Dict α β} {k : α} {v : β}
    {kv : α × β} (h : kv ∈ d.set k v) : kv ∈ d ∨ kv = (k, v) := by
  induction d with
  | nil =>
    simp only [Dict.set, List.mem_singleton] at h
    right
    exact h
  | cons hd tl ih =>
    by_cases hk : hd.1 = k
    · simp only [Dict.set, if_pos hk, List.mem_cons] at h
      rcases h with h | h
      · right
        exact h
      · left
        exact List.mem_cons_of_mem _ h
    · simp only [Dict.set, if_neg hk, List.mem_cons] at h
      rcases h with h | h
      · left
        rw [h]
        exact List.mem_cons_self _ _
      · rcases ih h with h' | h'
        · left
          exact List.mem_cons_of_mem _ h'
        · right
          exact h'

/-- Every player of the dict has nonnegative VORP. -/
def vorpsNonneg (l : Dict String PlayerState) : Prop := ∀ kv ∈ l, 0 ≤ kv.2.vorp

/-- vorpsNonneg survives any VORP-preserving map. -/
theorem vorpsNonneg_map {l : Dict String PlayerState}
    {f : String × PlayerState → String × PlayerState}
    (hv : ∀ kv, (f kv).2.vorp = kv.2.vorp) (h : vorpsNonneg l) : vorpsNonneg (l.map f) := by
  intro kv hkv
  rcases List.mem_map.mp hkv with ⟨kv0, hkv0, hf⟩
  rw [← hf, hv kv0]
  exact h kv0 hkv0

/-- vorpsNonneg survives writing a value with nonnegative VORP. -/
theorem vorpsNonneg_set {l : Dict String PlayerState} {k : String} {v : PlayerState}
    (h : vorpsNonneg l) (hv : 0 ≤ v.vorp) : vorpsNonneg (l.set k v) := by
  intro kv hkv
  rcases Dict.mem_set hkv with h' | h'
  · exact h kv h'
  · rw [h']
    exact hv

/-- vorpsNonneg survives the VONA refresh. -/
theorem vorpsNonneg_computeVonas {s : DraftState} (h : vorpsNonneg s.players) :
    vorpsNonneg (computeVonas s) := by
  unfold computeVonas
  refine vorpsNonneg_map ?_ h
  intro kv
  by_cases hd : kv.2.is_drafted <;> simp [hd]

/-- vorpsNonneg survives an aggregate recompute. -/
theorem vorpsNonneg_recompute {cfg : Settings} {t : ℚ} {s : DraftState}
    (h : vorpsNonneg s.players) : vorpsNonneg (recomputeAggregates cfg t s).players := by
  simp only [recomputeAggregates]
  exact vorpsNonneg_computeVonas h

/-- applyRawAndBudgets never touches the player pool. -/
theorem applyRawAndBudgets_players (u : DraftUpdate) (s : DraftState) :
    (applyRawAndBudgets u s).players = s.players := by
  simp only [applyRawAndBudgets]
  split <;> rfl

/-- vorpsNonneg survives one step of the sale-marking loop. -/
theorem vorpsNonneg_markStep {cfg : Settings} {idx : ResolverIndex} {fz : FuzzyStep}
    {teams : List TeamInfo} {acc : Dict String PlayerState × MyTeamState}
    (e : DraftLogEntry) (h : vorpsNonneg acc.1) :
    vorpsNonneg (markSaleStep cfg idx fz teams acc e).1 := by
  unfold markSaleStep
  cases hg : Dict.get? acc.1 (entryKey acc.1 idx fz e) with
  | none =>
    dsimp only
    rw [hg]
    exact h
  | some ps =>
    dsimp only
    rw [hg]
    by_cases hd : ps.is_drafted
    · simp only [hd, if_true]
      exact h
    · simp only [hd, Bool.false_eq_true, if_false]
      exact vorpsNonneg_set h (h _ (Dict.get?_mem hg))

/-- vorpsNonneg survives the whole sale-marking loop. -/
theorem vorpsNonneg_markFold {cfg : Settings} {idx : ResolverIndex} {fz : FuzzyStep}
    {teams : List TeamInfo} (entries : List DraftLogEntry)
    (acc : Dict String PlayerState × MyTeamState) (h : vorpsNonneg acc.1) :
    vorpsNonneg (entries.foldl (markSaleStep cfg idx fz teams) acc).1 := by
  induction entries generalizing acc with
  | nil => exact h
  | cons e rest ih =>
    exact ih _ (vorpsNonneg_markStep e h)

/-- The VORPs computed at load time are clamped at zero. -/
theorem vorpsNonneg_computeVorps (repl : Dict String ℚ) (l : Dict String PlayerState) :
    vorpsNonneg (computeVorps repl l) := by
  intro kv hkv
  rcases List.mem_map.mp hkv with ⟨kv0, _, hf⟩
  rw [← hf]
  exact le_max_left _ _

/-- Every reachable state has nonnegative VORP for every player. -/
theorem vorpsNonneg_reachable {cfg : Settings} {fz : FuzzyStep} {s : DraftState}
    (hr : Reachable cfg fz s) : vorpsNonneg s.players := by
  induction hr with
  | load t rows =>
    simp only [loadRows]
    exact vorpsNonneg_recompute (vorpsNonneg_computeVorps _ _)
  | update t u s' _ ih =>
    simp only [DraftState.update_from_draft_event]
    split
    · exact vorpsNonneg_recompute (vorpsNonneg_markFold _ _
        (by rw [applyRawAndBudgets_players]; exact ih))
    · exact vorpsNonneg_recompute (vorpsNonneg_markFold _ _
        (by rw [applyRawAndBudgets_players]; exact ih))
  | reset t s' _ ih =>
    simp only [DraftState.reset]
    refine vorpsNonneg_recompute (vorpsNonneg_map ?_ ih)
    intro kv
    rfl
  | sold t nm price tid s' _ ih =>
    simp only [manualSold]
    cases hk : s'.getPlayerKey fz nm with
    | none => exact ih
    | some k =>
      dsimp only
      cases hp : Dict.get? s'.players k with
      | none => exact ih
      | some ps =>
        dsimp only
        by_cases hd : ps.is_drafted
        · simp only [hd, if_true]
          exact ih
        · simp only [hd, Bool.false_eq_true, if_false]
          exact vorpsNonneg_recompute (vorpsNonneg_set ih (ih _ (Dict.get?_mem hp)))
  | undo t nm s' _ ih =>
    simp only [manualUndo]
    cases hk : s'.getPlayerKey fz nm with
    | none => exact ih
    | some k =>
      dsimp only
      cases hp : Dict.get? s'.players k with
      | none => exact ih
      | some ps =>
        dsimp only
        by_cases hd : ps.is_drafted
        · simp only [hd, Bool.not_true, Bool.false_eq_true, if_false]
          exact vorpsNonneg_recompute (vorpsNonneg_set ih (ih _ (Dict.get?_mem hp)))
        · simp only [hd, Bool.not_false, if_true]
          exact ih
  | budget t n s' _ ih =>
    simp only [manualBudget]
    exact vorpsNonneg_recompute ih

/-- Every reachable state's inflation factor satisfies the recompute
formula over its own fields. -/
theorem InflFormula_reachable {cfg : Settings} {fz : FuzzyStep} {s : DraftState}
    (hr : Reachable cfg fz s) :
    s.inflation_factor =
      if remainingAAV s.players > 0 then
        s.total_remaining_cash / remainingAAV s.players
      else 1 := by
  induction hr with
  | load t rows =>
    exact InflFormula_recompute cfg t _
  | update t u s' _ ih =>
    simp only [DraftState.update_from_draft_event]
    split
    · exact InflFormula_recompute cfg t _
    · exact InflFormula_recompute cfg t _
  | reset t s' _ ih =>
    exact InflFormula_recompute cfg t _
  | sold t nm price tid s' _ ih =>
    simp only [manualSold]
    cases hk : s'.getPlayerKey fz nm with
    | none => exact ih
    | some k =>
      dsimp only
      cases hp : Dict.get? s'.players k with
      | none => exact ih
      | some ps =>
        dsimp only
        by_cases hd : ps.is_drafted
        · simp only [hd, if_true]
          exact ih
        · simp only [hd, Bool.false_eq_true, if_false]
          exact InflFormula_recompute cfg t _
  | undo t nm s' _ ih =>
    simp only [manualUndo]
    cases hk : s'.getPlayerKey fz nm with
    | none => exact ih
    | some k =>
      dsimp only
      cases hp : Dict.get? s'.players k with
      | none => exact ih
      | some ps =>
        dsimp only
        by_cases hd : ps.is_drafted
        · simp only [hd, Bool.not_true, Bool.false_eq_true, if_false]
          exact InflFormula_recompute cfg t _
        · simp only [hd, Bool.not_false, if_true]
          exact ih
  | budget t n s' _ ih =>
    exact InflFormula_recompute cfg t _

/-- C2: in every reachable state with nonnegative baseline market values,
the inflation factor equals total remaining cash divided by the total
remaining baseline market value of undrafted players when that value is
nonzero, equals 1.0 when it is zero, and VORP is nonnegative for every
player. -/
theorem aggregate_consistency (cfg : Settings) (fz : FuzzyStep) (s : DraftState)
    (hr : Reachable cfg fz s)
    (hb : ∀ kv ∈ s.players, 0 ≤ kv.2.projection.baseline_aav) :
    (remainingAAV s.players ≠ 0 →
      s.inflation_factor = s.total_remaining_cash / remainingAAV s.players) ∧
    (remainingAAV s.players = 0 → s.inflation_factor = 1) ∧
    (∀ kv ∈ s.players, 0 ≤ kv.2.vorp) := by
  have hf := InflFormula_reachable hr
  have hnn : 0 ≤ remainingAAV s.players := remainingAAV_nonneg _ hb
  refine ⟨?_, ?_, vorpsNonneg_reachable hr⟩
  · intro hne
    rw [hf, if_pos (lt_of_le_of_ne hnn (Ne.symm hne))]
  · intro he
    rw [hf, if_neg (by rw [he]; exact lt_irrefl 0)]

/-- C2 witness: the aggregate-consistency theorem at the reachable state
obtained by loading one RB row and ingesting an empty update. -/
theorem aggregate_consistency_witness :
    (Reachable defaultSettings noFuzzy
      ((loadRows defaultSettings 0 [etienneRow]
        (initState defaultSettings)).update_from_draft_event defaultSettings noFuzzy 1 {}) ∧
      (∀ kv ∈ ((loadRows defaultSettings 0 [etienneRow]
          (initState defaultSettings)).update_from_draft_event defaultSettings noFuzzy
            1 {}).players, 0 ≤ kv.2.projection.baseline_aav)) ∧
    ((remainingAAV ((loadRows defaultSettings 0 [etienneRow]
        (initState defaultSettings)).update_from_draft_event defaultSettings noFuzzy
          1 {}).players ≠ 0 →
      ((loadRows defaultSettings 0 [etienneRow]
        (initState defaultSettings)).update_from_draft_event defaultSettings noFuzzy
          1 {}).inflation_factor =
        ((loadRows defaultSettings 0 [etienneRow]
          (initState defaultSettings)).update_from_draft_event defaultSettings noFuzzy
            1 {}).total_remaining_cash /
          remainingAAV ((loadRows defaultSettings 0 [etienneRow]
            (initState defaultSettings)).update_from_draft_event defaultSettings noFuzzy
              1 {}).players) ∧
      (remainingAAV ((loadRows defaultSettings 0 [etienneRow]
          (initState defaultSettings)).update_from_draft_event defaultSettings noFuzzy
            1 {}).players = 0 →
        ((loadRows defaultSettings 0 [etienneRow]
          (initState defaultSettings)).update_from_draft_event defaultSettings noFuzzy
            1 {}).inflation_factor = 1) ∧
      (∀ kv ∈ ((loadRows defaultSettings 0 [etienneRow]
          (initState defaultSettings)).update_from_draft_event defaultSettings noFuzzy
            1 {}).players, 0 ≤ kv.2.vorp)) :=
  ⟨⟨Reachable.update 1 {} _ (Reachable.load 0 [etienneRow]), by decide⟩,
    aggregate_consistency defaultSettings noFuzzy _
      (Reachable.update 1 {} _ (Reachable.load 0 [etienneRow])) (by decide)⟩

/-! ## C1: idempotence of update ingestion -/

/-- The fields of a player that the VONA computation reads: display name,
projected points, position, VORP and the drafted flag. -/
def vonaView (ps : PlayerState) : String × ℚ × String × ℚ × Bool :=
  (ps.projection.player_name, ps.projection.projected_points,
    ps.projection.position, ps.vorp, ps.is_drafted)

/-- Filtering respects any view under which the predicate factors. -/
theorem map_filter_congr {α β : Type} (v : α → β) (p : α → Bool)
    (hp : ∀ a a', v a = v a' → p a = p a') :
    ∀ (l l' : List α), l.map v = l'.map v →
      (l.filter p).map v = (l'.filter p).map v := by
  intro l
  induction l with
  | nil =>
    intro l' h
    have : l' = [] := List.map_eq_nil_iff.mp h.symm
    subst this
    rfl
  | cons a tl ih =>
    intro l' h
    cases l' with
    | nil => simp at h
    | cons a' tl' =>
      simp only [List.map_cons, List.cons.injEq] at h
      obtain ⟨hv, htl⟩ := h
      simp only [List.filter_cons]
      rw [← hp a a' hv]
      by_cases hpa : p a
      · simp only [hpa, if_true, List.map_cons, hv, ih tl' htl]
      · simp only [hpa, Bool.false_eq_true, if_false, ih tl' htl]

/-- Stable descending insertion respects any view under which the sort key
factors. -/
theorem map_insertDescBy_congr {α β : Type} (v : α → β) (key : α → ℚ)
    (hk : ∀ a a', v a = v a' → key a = key a') (x x' : α) (hx : v x = v x') :
    ∀ (l l' : List α), l.map v = l'.map v →
      (insertDescBy key x l).map v = (insertDescBy key x' l').map v := by
  intro l
  induction l with
  | nil =>
    intro l' h
    have : l' = [] := List.map_eq_nil_iff.mp h.symm
    subst this
    simp [insertDescBy, hx]
  | cons y tl ih =>
    intro l' h
    cases l' with
    | nil => simp at h
    | cons y' tl' =>
      simp only [List.map_cons, List.cons.injEq] at h
      obtain ⟨hyv, htl⟩ := h
      simp only [insertDescBy]
      rw [← hk y y' hyv, ← hk x x' hx]
      by_cases hc : key y ≤ key x
      · simp only [hc, if_true, List.map_cons, hx, hyv, htl]
      · simp only [hc, if_false, List.map_cons, hyv, ih tl' htl]

/-- The stable descending sort respects any view under which the sort key
factors. -/
theorem map_sortDescBy_congr {α β : Type} (v : α → β) (key : α → ℚ)
    (hk : ∀ a a', v a = v a' → key a = key a') :
    ∀ (l l' : List α), l.map v = l'.map v →
      (sortDescBy key l).map v = (sortDescBy key l').map v := by
  intro l
  induction l with
  | nil =>
    intro l' h
    have : l' = [] := List.map_eq_nil_iff.mp h.symm
    subst this
    rfl
  | cons y tl ih =>
    intro l' h
    cases l' with
    | nil => simp at h
    | cons y' tl' =>
      simp only [List.map_cons, List.cons.injEq] at h
      obtain ⟨hyv, htl⟩ := h
      simp only [sortDescBy]
      exact map_insertDescBy_congr v key hk y y' hyv _ _ (ih tl' htl)

/-- The VONA scan reads only the view of the remaining players. -/
theorem vonaLoop_congr (pname : String) (pts : ℚ) :
    ∀ (b : Bool) (l l' : List PlayerState), l.map vonaView = l'.map vonaView →
      vonaLoop pname pts b l = vonaLoop pname pts b l' := by
  intro b l
  induction l generalizing b with
  | nil =>
    intro l' h
    have : l' = [] := List.map_eq_nil_iff.mp h.symm
    subst this
    rfl
  | cons psx tl ih =>
    intro l' h
    cases l' with
    | nil => simp at h
    | cons psx' tl' =>
      simp only [List.map_cons, List.cons.injEq] at h
      obtain ⟨hv, htl⟩ := h
      have hname : psx.projection.player_name = psx'.projection.player_name :=
        congrArg Prod.fst hv
      have hpts : psx.projection.projected_points = psx'.projection.projected_points :=
        congrArg (fun tp => tp.2.1) hv
      simp only [vonaLoop]
      rw [← hname, ← hpts]
      by_cases hn : psx.projection.player_name = pname
      · simp only [hn, if_true]
        exact ih true tl' htl
      · simp only [hn, if_false]
        cases b with
        | true => simp
        | false =>
          simp only [Bool.false_eq_true, if_false]
          exact ih false tl' htl

/-- The remaining-player list respects the VONA view. -/
theorem get_remaining_view_congr (S S' : DraftState) (pos : String)
    (hl : S.players.map (fun kv => vonaView kv.2) =
      S'.players.map (fun kv => vonaView kv.2)) :
    (S.get_remaining_players (some pos)).map vonaView =
      (S'.get_remaining_players (some pos)).map vonaView := by
  have hvals : S.players.values.map vonaView = S'.players.values.map vonaView := by
    simp only [Dict.values, List.map_map]
    exact hl
  unfold DraftState.get_remaining_players
  refine map_sortDescBy_congr vonaView (fun ps => ps.vorp)
    (fun a a' ha => congrArg (fun tp => tp.2.2.2.1) ha) _ _ ?_
  refine map_filter_congr vonaView _
    (fun a a' ha => by
      have : a.projection.position = a'.projection.position :=
        congrArg (fun tp => tp.2.2.1) ha
      simp [this]) _ _ ?_
  refine map_filter_congr vonaView _
    (fun a a' ha => by
      have : a.is_drafted = a'.is_drafted :=
        congrArg (fun tp => tp.2.2.2.2) ha
      simp [this]) _ _ ?_
  exact hvals

/-- calculate_vona reads only the views of the player and the pool. -/
theorem calculate_vona_view_congr (p p' : PlayerState) (S S' : DraftState)
    (hp : vonaView p = vonaView p')
    (hl : S.players.map (fun kv => vonaView kv.2) =
      S'.players.map (fun kv => vonaView kv.2)) :
    calculate_vona p S = calculate_vona p' S' := by
  have hname : p.projection.player_name = p'.projection.player_name :=
    congrArg Prod.fst hp
  have hpts : p.projection.projected_points = p'.projection.projected_points :=
    congrArg (fun tp => tp.2.1) hp
  have hpos : p.projection.position = p'.projection.position :=
    congrArg (fun tp => tp.2.2.1) hp
  have hvorp : p.vorp = p'.vorp := congrArg (fun tp => tp.2.2.2.1) hp
  simp only [calculate_vona]
  rw [← hname, ← hpts, ← hpos, ← hvorp]
  rw [vonaLoop_congr p.projection.player_name p.projection.projected_points false
    (S.get_remaining_players (some p.projection.position))
    (S'.get_remaining_players (some p.projection.position))
    (get_remaining_view_congr S S' _ hl)]

/-- The VONA refresh never changes the view of any player. -/
theorem computeVonas_view (S : DraftState) :
    (computeVonas S).map (fun kv => vonaView kv.2) =
      S.players.map (fun kv => vonaView kv.2) := by
  unfold computeVonas
  rw [List.map_map]
  refine List.map_congr_left ?_
  intro kv _
  by_cases hd : kv.2.is_drafted <;> simp [hd, vonaView]

/-- computeVonas reads nothing of the state besides the player pool. -/
theorem computeVonas_players_congr {S S' : DraftState} (h : S.players = S'.players) :
    computeVonas S = computeVonas S' := by
  simp only [computeVonas, calculate_vona, DraftState.get_remaining_players, h]

/-- Running the VONA refresh again on its own output reproduces it: the
second pass recomputes every VONA from unchanged views and overwrites the
fields with the values they already hold. -/
theorem computeVonas_idem (S₁ S₂ : DraftState) (h : S₂.players = computeVonas S₁) :
    computeVonas S₂ = computeVonas S₁ := by
  have hview : S₂.players.map (fun kv => vonaView kv.2) =
      S₁.players.map (fun kv => vonaView kv.2) := by
    rw [h]
    exact computeVonas_view S₁
  conv_lhs => rw [computeVonas, h, computeVonas]
  rw [List.map_map]
  conv_rhs => rw [computeVonas]
  refine List.map_congr_left ?_
  intro kv _
  have hcv : calculate_vona
      { kv.2 with
        vona := (calculate_vona kv.2 S₁).1
        vona_next_player := (calculate_vona kv.2 S₁).2 } S₂ =
      calculate_vona kv.2 S₁ :=
    calculate_vona_view_congr _ _ S₂ S₁ rfl hview
  by_cases hd : kv.2.is_drafted
  · simp [hd]
  · have hF : kv.2.is_drafted = false := by cases hb : kv.2.is_drafted <;> simp_all
    simp only [hF] at hcv
    simp [hF, hcv]

/-! ### C1: idempotence of cumulative-update ingestion -/

/-- Mapping a key-preserving function over a dict leaves its key list
unchanged. -/
theorem Dict.keys_map_fst {α β : Type} (f : α × β → α × β)
    (hk : ∀ kv, (f kv).1 = kv.1) (l : Dict α β) :
    Dict.keys (l.map f) = Dict.keys l := by
  simp only [Dict.keys, List.map_map]
  exact List.map_congr_left (fun kv _ => hk kv)

/-- The VONA refresh leaves the players key list unchanged. -/
theorem computeVonas_keys (s : DraftState) :
    Dict.keys (computeVonas s) = Dict.keys s.players := by
  rw [computeVonas]
  refine Dict.keys_map_fst _ ?_ s.players
  intro kv
  by_cases hd : kv.2.is_drafted <;> simp [hd]

/-- Any record the players dict holds at this key is already marked
drafted (vacuously true at an absent key). -/
def DraftedAt (players : Dict String PlayerState) (k : String) : Prop :=
  ∀ ps, Dict.get? players k = some ps → ps.is_drafted = true

/-- The players key a draft-log entry addresses depends on the dict only
through its key list. -/
theorem entryKey_congr {d d' : Dict String PlayerState}
    (h : Dict.keys d = Dict.keys d') (idx : ResolverIndex) (fz : FuzzyStep)
    (e : DraftLogEntry) : entryKey d idx fz e = entryKey d' idx fz e := by
  simp only [entryKey, Dict.hasKey_congr_keys h]

/-- One sale-marking step leaves the players key list unchanged. -/
theorem markSaleStep_keys (cfg : Settings) (idx : ResolverIndex) (fz : FuzzyStep)
    (teams : List TeamInfo) (acc : Dict String PlayerState × MyTeamState)
    (e : DraftLogEntry) :
    Dict.keys (markSaleStep cfg idx fz teams acc e).1 = Dict.keys acc.1 := by
  unfold markSaleStep
  cases hg : Dict.get? acc.1 (entryKey acc.1 idx fz e) with
  | none =>
    dsimp only
    rw [hg]
  | some ps =>
    dsimp only
    rw [hg]
    by_cases hd : ps.is_drafted
    · simp only [hd, if_true]
    · simp only [hd, Bool.false_eq_true, if_false]
      exact Dict.keys_set_of_mem hg _

/-- One sale-marking step marks the key it addresses drafted (or leaves an
absent or already-drafted key alone). -/
theorem markSaleStep_establishes (cfg : Settings) (idx : ResolverIndex) (fz : FuzzyStep)
    (teams : List TeamInfo) (acc : Dict String PlayerState × MyTeamState)
    (e : DraftLogEntry) :
    DraftedAt (markSaleStep cfg idx fz teams acc e).1 (entryKey acc.1 idx fz e) := by
  unfold markSaleStep
  cases hg : Dict.get? acc.1 (entryKey acc.1 idx fz e) with
  | none =>
    dsimp only
    rw [hg]
    intro ps hps
    rw [hg] at hps
    exact Option.noConfusion hps
  | some ps =>
    dsimp only
    rw [hg]
    by_cases hd : ps.is_drafted
    · simp only [hd, if_true]
      intro ps' hps'
      rw [hg] at hps'
      cases hps'
      exact hd
    · simp only [hd, Bool.false_eq_true, if_false]
      intro ps' hps'
      rw [Dict.get?_set_self] at hps'
      cases hps'
      rfl

/-- One sale-marking step never un-drafts a key. -/
theorem markSaleStep_preserves (cfg : Settings) (idx : ResolverIndex) (fz : FuzzyStep)
    (teams : List TeamInfo) (acc : Dict String PlayerState × MyTeamState)
    (e : DraftLogEntry) (k : String) (h : DraftedAt acc.1 k) :
    DraftedAt (markSaleStep cfg idx fz teams acc e).1 k := by
  unfold markSaleStep
  cases hg : Dict.get? acc.1 (entryKey acc.1 idx fz e) with
  | none =>
    dsimp only
    rw [hg]
    exact h
  | some ps =>
    dsimp only
    rw [hg]
    by_cases hd : ps.is_drafted
    · simp only [hd, if_true]
      exact h
    · simp only [hd, Bool.false_eq_true, if_false]
      intro ps' hps'
      by_cases hk : k = entryKey acc.1 idx fz e
      · subst hk
        rw [Dict.get?_set_self] at hps'
        cases hps'
        rfl
      · rw [Dict.get?_set_ne _ hk] at hps'
        exact h _ hps'

/-- The sale-marking fold leaves the players key list unchanged. -/
theorem markFold_keys (cfg : Settings) (idx : ResolverIndex) (fz : FuzzyStep)
    (teams : List TeamInfo) (entries : List DraftLogEntry)
    (acc : Dict String PlayerState × MyTeamState) :
    Dict.keys (entries.foldl (markSaleStep cfg idx fz teams) acc).1 = Dict.keys acc.1 := by
  induction entries generalizing acc with
  | nil => rfl
  | cons e rest ih =>
    rw [List.foldl_cons, ih, markSaleStep_keys]

/-- DraftedAt survives the whole sale-marking fold. -/
theorem markFold_preserves (cfg : Settings) (idx : ResolverIndex) (fz : FuzzyStep)
    (teams : List TeamInfo) (entries : List DraftLogEntry)
    (acc : Dict String PlayerState × MyTeamState) (k : String) (h : DraftedAt acc.1 k) :
    DraftedAt (entries.foldl (markSaleStep cfg idx fz teams) acc).1 k := by
  induction entries generalizing acc with
  | nil => exact h
  | cons e rest ih =>
    exact ih _ (markSaleStep_preserves cfg idx fz teams acc e k h)

/-- After the sale-marking fold, every key some processed entry addresses
holds a drafted record (if it holds one at all). -/
theorem markFold_post (cfg : Settings) (idx : ResolverIndex) (fz : FuzzyStep)
    (teams : List TeamInfo) (entries : List DraftLogEntry)
    (acc : Dict String PlayerState × MyTeamState) :
    ∀ e ∈ entries,
      DraftedAt (entries.foldl (markSaleStep cfg idx fz teams) acc).1
        (entryKey acc.1 idx fz e) := by
  induction entries generalizing acc with
  | nil => intro e he; exact absurd he (List.not_mem_nil e)
  | cons e0 rest ih =>
    intro e he
    rw [List.foldl_cons]
    rcases List.mem_cons.mp he with he0 | hrest
    · subst he0
      exact markFold_preserves cfg idx fz teams rest _ _
        (markSaleStep_establishes cfg idx fz teams acc e)
    · have hkeys : Dict.keys (markSaleStep cfg idx fz teams acc e0).1 = Dict.keys acc.1 :=
        markSaleStep_keys cfg idx fz teams acc e0
      rw [show entryKey acc.1 idx fz e =
          entryKey (markSaleStep cfg idx fz teams acc e0).1 idx fz e from
        (entryKey_congr hkeys idx fz e).symm]
      exact ih _ e hrest

/-- An entry whose addressed key is already drafted is a no-op for the
sale-marking step. -/
theorem markSaleStep_noop (cfg : Settings) (idx : ResolverIndex) (fz : FuzzyStep)
    (teams : List TeamInfo) (acc : Dict String PlayerState × MyTeamState)
    (e : DraftLogEntry) (h : DraftedAt acc.1 (entryKey acc.1 idx fz e)) :
    markSaleStep cfg idx fz teams acc e = acc := by
  unfold markSaleStep
  cases hg : Dict.get? acc.1 (entryKey acc.1 idx fz e) with
  | none =>
    dsimp only
    rw [hg]
  | some ps =>
    dsimp only
    rw [hg]
    simp only [h ps hg, if_true]

/-- The whole sale-marking fold is a no-op once every addressed key is
already drafted. -/
theorem markFold_noop (cfg : Settings) (idx : ResolverIndex) (fz : FuzzyStep)
    (teams : List TeamInfo) (entries : List DraftLogEntry)
    (acc : Dict String PlayerState × MyTeamState)
    (h : ∀ e ∈ entries, DraftedAt acc.1 (entryKey acc.1 idx fz e)) :
    entries.foldl (markSaleStep cfg idx fz teams) acc = acc := by
  induction entries with
  | nil => rfl
  | cons e0 rest ih =>
    rw [List.foldl_cons, markSaleStep_noop cfg idx fz teams acc e0 (h e0 (by simp))]
    exact ih (fun e he => h e (List.mem_cons_of_mem e0 he))

/-- The VONA refresh never un-drafts a key. -/
theorem DraftedAt_computeVonas {S : DraftState} {k : String}
    (h : DraftedAt S.players k) : DraftedAt (computeVonas S) k := by
  intro ps' hps'
  have hcore := computeVonas_get?_core S k
  rw [hps'] at hcore
  cases hg : Dict.get? S.players k with
  | none =>
    rw [hg] at hcore
    exact Option.noConfusion hcore
  | some ps =>
    rw [hg] at hcore
    have hcc : playerCore ps' = playerCore ps := by injection hcore
    have hdd : ps'.is_drafted = ps.is_drafted := congrArg (fun c => c.2.1) hcc
    rw [hdd]
    exact h ps hg

/-- The raw-payload stash records the incoming update. -/
theorem applyRawAndBudgets_raw (u : DraftUpdate) (s : DraftState) :
    (applyRawAndBudgets u s).raw_latest = some u := by
  simp only [applyRawAndBudgets]
  split <;> rfl

/-- The raw-payload stash leaves the resolver index untouched. -/
theorem applyRawAndBudgets_resolver (u : DraftUpdate) (s : DraftState) :
    (applyRawAndBudgets u s).resolverIndex = s.resolverIndex := by
  simp only [applyRawAndBudgets]
  split <;> rfl

/-- The raw-payload stash leaves my_team untouched. -/
theorem applyRawAndBudgets_my_team (u : DraftUpdate) (s : DraftState) :
    (applyRawAndBudgets u s).my_team = s.my_team := by
  simp only [applyRawAndBudgets]
  split <;> rfl

/-- The raw-payload stash leaves the opponent tracker untouched. -/
theorem applyRawAndBudgets_opponent (u : DraftUpdate) (s : DraftState) :
    (applyRawAndBudgets u s).opponent_tracker = s.opponent_tracker := by
  simp only [applyRawAndBudgets]
  split <;> rfl

/-- The raw-payload stash leaves the replacement levels untouched. -/
theorem applyRawAndBudgets_replacement (u : DraftUpdate) (s : DraftState) :
    (applyRawAndBudgets u s).replacement_level = s.replacement_level := by
  simp only [applyRawAndBudgets]
  split <;> rfl

/-- The raw-payload stash leaves the team aliases untouched. -/
theorem applyRawAndBudgets_aliases (u : DraftUpdate) (s : DraftState) :
    (applyRawAndBudgets u s).team_aliases = s.team_aliases := by
  simp only [applyRawAndBudgets]
  split <;> rfl

/-- The budgets the raw-payload stash leaves behind. -/
theorem applyRawAndBudgets_team_budgets (u : DraftUpdate) (s : DraftState) :
    (applyRawAndBudgets u s).team_budgets =
      if newBudgets u.teams ≠ [] then newBudgets u.teams else s.team_budgets := by
  simp only [applyRawAndBudgets]
  split <;> rfl

/-- On a state that already stashed this update and its budgets, the
raw-payload stash is the identity. -/
theorem applyRawAndBudgets_noop (u : DraftUpdate) (s : DraftState)
    (h1 : s.raw_latest = some u)
    (h2 : newBudgets u.teams ≠ [] → s.team_budgets = newBudgets u.teams) :
    applyRawAndBudgets u s = s := by
  simp only [applyRawAndBudgets]
  split_ifs with hnb
  · rw [← h2 hnb, ← h1]
  · rw [← h1]

/-- The aggregate recompute replaces the players with the VONA refresh of
the incoming state. -/
theorem recompute_players_eq (cfg : Settings) (t : ℚ) (s : DraftState) :
    (recomputeAggregates cfg t s).players = computeVonas s := by
  simp only [recomputeAggregates]
  exact computeVonas_players_congr rfl

/-- The players an ingestion leaves behind: the VONA refresh of the
stage-one state. -/
theorem update_players (cfg : Settings) (fz : FuzzyStep) (t : ℚ) (u : DraftUpdate)
    (s : DraftState) :
    (DraftState.update_from_draft_event cfg fz t u s).players =
      computeVonas (updateStage1 cfg fz u s) := by
  simp only [DraftState.update_from_draft_event]
  split <;> exact recompute_players_eq cfg t _

/-- The my_team an ingestion leaves behind: the marking fold's team with
the refreshed budget. -/
theorem update_my_team (cfg : Settings) (fz : FuzzyStep) (t : ℚ) (u : DraftUpdate)
    (s : DraftState) :
    (DraftState.update_from_draft_event cfg fz t u s).my_team =
      { (updateMarkFold cfg fz u s).2 with
        budget := myBudgetFold cfg u.teams (updateMarkFold cfg fz u s).2.budget } := by
  simp only [DraftState.update_from_draft_event]
  split <;> rfl

/-- An ingestion stashes the incoming update as the raw payload. -/
theorem update_raw_latest (cfg : Settings) (fz : FuzzyStep) (t : ℚ) (u : DraftUpdate)
    (s : DraftState) :
    (DraftState.update_from_draft_event cfg fz t u s).raw_latest = some u := by
  simp only [DraftState.update_from_draft_event]
  split <;> exact applyRawAndBudgets_raw u s

/-- The budgets an ingestion leaves behind are the stash's. -/
theorem update_team_budgets (cfg : Settings) (fz : FuzzyStep) (t : ℚ) (u : DraftUpdate)
    (s : DraftState) :
    (DraftState.update_from_draft_event cfg fz t u s).team_budgets =
      (applyRawAndBudgets u s).team_budgets := by
  simp only [DraftState.update_from_draft_event]
  split <;> rfl

/-- An ingestion leaves the resolver index untouched. -/
theorem update_resolver (cfg : Settings) (fz : FuzzyStep) (t : ℚ) (u : DraftUpdate)
    (s : DraftState) :
    (DraftState.update_from_draft_event cfg fz t u s).resolverIndex = s.resolverIndex := by
  simp only [DraftState.update_from_draft_event]
  split <;> exact applyRawAndBudgets_resolver u s

/-- An ingestion leaves the replacement levels untouched. -/
theorem update_replacement (cfg : Settings) (fz : FuzzyStep) (t : ℚ) (u : DraftUpdate)
    (s : DraftState) :
    (DraftState.update_from_draft_event cfg fz t u s).replacement_level =
      s.replacement_level := by
  simp only [DraftState.update_from_draft_event]
  split <;> exact applyRawAndBudgets_replacement u s

/-- An ingestion leaves the team aliases untouched. -/
theorem update_aliases (cfg : Settings) (fz : FuzzyStep) (t : ℚ) (u : DraftUpdate)
    (s : DraftState) :
    (DraftState.update_from_draft_event cfg fz t u s).team_aliases = s.team_aliases := by
  simp only [DraftState.update_from_draft_event]
  split <;> exact applyRawAndBudgets_aliases u s

/-- An ingestion replaces the cumulative draft log wholesale. -/
theorem update_draft_log (cfg : Settings) (fz : FuzzyStep) (t : ℚ) (u : DraftUpdate)
    (s : DraftState) :
    (DraftState.update_from_draft_event cfg fz t u s).draft_log = u.draftLog := by
  simp only [DraftState.update_from_draft_event]
  split <;> rfl

/-- The opponent tracker an ingestion leaves behind. -/
theorem update_opponent (cfg : Settings) (fz : FuzzyStep) (t : ℚ) (u : DraftUpdate)
    (s : DraftState) :
    (DraftState.update_from_draft_event cfg fz t u s).opponent_tracker =
      if u.rosters ≠ [] ∧ u.teams ≠ [] then
        OpponentTracker.update_from_rosters s.opponent_tracker cfg u.rosters u.teams
          cfg.my_team_name
      else s.opponent_tracker := by
  simp only [DraftState.update_from_draft_event]
  split_ifs with hc
  · exact congrArg
      (fun tr => OpponentTracker.update_from_rosters tr cfg u.rosters u.teams
        cfg.my_team_name)
      (applyRawAndBudgets_opponent u s)
  · exact applyRawAndBudgets_opponent u s

/-- An ingestion leaves the players key list unchanged. -/
theorem update_keys (cfg : Settings) (fz : FuzzyStep) (t : ℚ) (u : DraftUpdate)
    (s : DraftState) :
    Dict.keys (DraftState.update_from_draft_event cfg fz t u s).players =
      Dict.keys s.players := by
  rw [update_players cfg fz t u s, computeVonas_keys]
  show Dict.keys (updateMarkFold cfg fz u s).1 = _
  simp only [updateMarkFold]
  rw [markFold_keys]
  exact congrArg Dict.keys (applyRawAndBudgets_players u s)

/-- After an ingestion, every key some entry of the ingested draft log
addresses holds a drafted record (if it holds one at all). -/
theorem update_drafted_post (cfg : Settings) (fz : FuzzyStep) (t : ℚ) (u : DraftUpdate)
    (s : DraftState) :
    ∀ e ∈ u.draftLog,
      DraftedAt (DraftState.update_from_draft_event cfg fz t u s).players
        (entryKey s.players s.resolverIndex fz e) := by
  intro e he
  rw [update_players cfg fz t u s]
  apply DraftedAt_computeVonas
  show DraftedAt (updateMarkFold cfg fz u s).1 _
  simp only [updateMarkFold]
  rw [show entryKey s.players s.resolverIndex fz e =
      entryKey (applyRawAndBudgets u s).players (applyRawAndBudgets u s).resolverIndex fz e
    by rw [applyRawAndBudgets_players, applyRawAndBudgets_resolver]]
  exact markFold_post cfg (applyRawAndBudgets u s).resolverIndex fz u.teams u.draftLog
    ((applyRawAndBudgets u s).players, (applyRawAndBudgets u s).my_team) e he

/-- The remaining-AAV aggregate an ingestion leaves behind. -/
theorem update_aav (cfg : Settings) (fz : FuzzyStep) (t : ℚ) (u : DraftUpdate)
    (s : DraftState) :
    (DraftState.update_from_draft_event cfg fz t u s).total_remaining_aav =
      remainingAAV (updateStage1 cfg fz u s).players := by
  simp only [DraftState.update_from_draft_event]
  split <;> rfl

/-- The remaining-cash aggregate an ingestion leaves behind. -/
theorem update_cash (cfg : Settings) (fz : FuzzyStep) (t : ℚ) (u : DraftUpdate)
    (s : DraftState) :
    (DraftState.update_from_draft_event cfg fz t u s).total_remaining_cash =
      remainingCash cfg (updateStage1 cfg fz u s).team_budgets := by
  simp only [DraftState.update_from_draft_event]
  split <;> rfl

/-- The inflation factor an ingestion leaves behind. -/
theorem update_infl (cfg : Settings) (fz : FuzzyStep) (t : ℚ) (u : DraftUpdate)
    (s : DraftState) :
    (DraftState.update_from_draft_event cfg fz t u s).inflation_factor =
      if remainingAAV (updateStage1 cfg fz u s).players > 0 then
        remainingCash cfg (updateStage1 cfg fz u s).team_budgets /
          remainingAAV (updateStage1 cfg fz u s).players
      else 1 := by
  simp only [DraftState.update_from_draft_event]
  split <;> rfl

/-- The newly-drafted list an ingestion leaves behind: post-ingestion
drafted players whose key was not drafted before. -/
theorem update_newly (cfg : Settings) (fz : FuzzyStep) (t : ℚ) (u : DraftUpdate)
    (s : DraftState) :
    (DraftState.update_from_draft_event cfg fz t u s).newly_drafted =
      (((recomputeAggregates cfg t (updateStage1 cfg fz u s)).players.filter
        (fun kv => kv.2.is_drafted ∧
          kv.1 ∉ (s.players.filter (fun kv => kv.2.is_drafted)).map Prod.fst)).map
        Prod.snd) := by
  simp only [DraftState.update_from_draft_event]
  split <;> rfl

/-- The last-writer-wins budget scan either ignores its seed on every
my-team hit or is the identity. -/
theorem myBudgetFold_dichotomy (cfg : Settings) (teams : List TeamInfo) :
    ∀ b₁ b₂ : ℤ, myBudgetFold cfg teams b₁ = myBudgetFold cfg teams b₂ ∨
      (myBudgetFold cfg teams b₁ = b₁ ∧ myBudgetFold cfg teams b₂ = b₂) := by
  induction teams with
  | nil =>
    intro b₁ b₂
    exact Or.inr ⟨rfl, rfl⟩
  | cons tm tl ih =>
    intro b₁ b₂
    simp only [myBudgetFold, List.foldl_cons] at ih ⊢
    by_cases hm : isMyTeam cfg tm.name
    · cases hrb : tm.remainingBudget with
      | some rb =>
        simp only [hm, if_true, hrb]
        exact Or.inl trivial
      | none =>
        simp only [hm, if_true, hrb]
        exact ih b₁ b₂
    · simp only [hm, Bool.false_eq_true, if_false]
      exact ih b₁ b₂

/-- The my-team budget scan is idempotent. -/
theorem myBudgetFold_idem (cfg : Settings) (teams : List TeamInfo) (b : ℤ) :
    myBudgetFold cfg teams (myBudgetFold cfg teams b) = myBudgetFold cfg teams b := by
  rcases myBudgetFold_dichotomy cfg teams (myBudgetFold cfg teams b) b with h | ⟨h₁, h₂⟩
  · exact h
  · exact h₁

/-- The roster-loop state already holds exactly what the step would write
for this (team id, entries) pair. -/
def OppWritten (cfg : Settings) (team_map : Dict String TeamMeta) (tr : OpponentTracker)
    (kv : String × List RosterEntry) : Prop :=
  Dict.get? tr.team_rosters kv.1 = some (oppPosCounts cfg kv.2) ∧
  Dict.get? tr.team_names kv.1 = some (oppTeamName team_map kv.1) ∧
  (∀ m b, Dict.get? team_map kv.1 = some m → m.budget = some b →
    Dict.get? tr.team_budgets kv.1 = some b) ∧
  (∀ m rs, Dict.get? team_map kv.1 = some m → m.rosterSize = some rs →
    Dict.get? tr.team_sizes kv.1 = some rs)

/-- Either the step skips this pair as the caller's own team, or the
tracker already holds what the step writes. -/
def OppDone (cfg : Settings) (team_map : Dict String TeamMeta) (my_aliases : List String)
    (tr : OpponentTracker) (kv : String × List RosterEntry) : Prop :=
  (oppTeamName team_map kv.1 ≠ "" ∧
    pyStrip (pyLower (oppTeamName team_map kv.1)) ∈ my_aliases) ∨
  OppWritten cfg team_map tr kv

/-- A done pair makes the roster-loop step the identity. -/
theorem oppStep_noop (cfg : Settings) (tm : Dict String TeamMeta) (al : List String)
    (tr : OpponentTracker) (kv : String × List RosterEntry)
    (h : OppDone cfg tm al tr kv) : oppStep cfg tm al tr kv = tr := by
  simp only [OppDone, OppWritten] at h
  simp only [oppStep]
  split_ifs with hs
  · rfl
  · rcases h with hskip | ⟨h1, h2, h3, h4⟩
    · exact absurd hskip hs
    · rw [Dict.set_get?_self h1, Dict.set_get?_self h2]
      cases hm : Dict.get? tm kv.1 with
      | none => rfl
      | some m =>
        dsimp only
        cases hb : m.budget with
        | none =>
          cases hrs : m.rosterSize with
          | none => rfl
          | some rs =>
            dsimp only
            rw [Dict.set_get?_self (h4 m rs hm hrs)]
        | some b =>
          dsimp only
          rw [Dict.set_get?_self (h3 m b hm hb)]
          cases hrs : m.rosterSize with
          | none => rfl
          | some rs =>
            dsimp only
            rw [Dict.set_get?_self (h4 m rs hm hrs)]

/-- The roster-loop step makes its own pair done. -/
theorem oppStep_establishes (cfg : Settings) (tm : Dict String TeamMeta) (al : List String)
    (tr : OpponentTracker) (kv : String × List RosterEntry) :
    OppDone cfg tm al (oppStep cfg tm al tr kv) kv := by
  by_cases hs : oppTeamName tm kv.1 ≠ "" ∧ pyStrip (pyLower (oppTeamName tm kv.1)) ∈ al
  · exact Or.inl hs
  · refine Or.inr ?_
    simp only [OppWritten, oppStep]
    rw [if_neg hs]
    cases hm : Dict.get? tm kv.1 with
    | none =>
      dsimp only
      refine ⟨Dict.get?_set_self _ _ _, Dict.get?_set_self _ _ _, ?_, ?_⟩
      · intro m b hm' _
        exact Option.noConfusion hm'
      · intro m rs hm' _
        exact Option.noConfusion hm'
    | some m =>
      dsimp only
      cases hb : m.budget with
      | none =>
        cases hrs : m.rosterSize with
        | none =>
          dsimp only
          refine ⟨Dict.get?_set_self _ _ _, Dict.get?_set_self _ _ _, ?_, ?_⟩
          · intro m' b' hm' hb'
            injection hm' with hmm
            subst hmm
            rw [hb] at hb'
            exact Option.noConfusion hb'
          · intro m' rs' hm' hrs'
            injection hm' with hmm
            subst hmm
            rw [hrs] at hrs'
            exact Option.noConfusion hrs'
        | some rs =>
          dsimp only
          refine ⟨Dict.get?_set_self _ _ _, Dict.get?_set_self _ _ _, ?_, ?_⟩
          · intro m' b' hm' hb'
            injection hm' with hmm
            subst hmm
            rw [hb] at hb'
            exact Option.noConfusion hb'
          · intro m' rs' hm' hrs'
            injection hm' with hmm
            subst hmm
            rw [hrs] at hrs'
            injection hrs' with hrr
            subst hrr
            exact Dict.get?_set_self _ _ _
      | some b =>
        cases hrs : m.rosterSize with
        | none =>
          dsimp only
          refine ⟨Dict.get?_set_self _ _ _, Dict.get?_set_self _ _ _, ?_, ?_⟩
          · intro m' b' hm' hb'
            injection hm' with hmm
            subst hmm
            rw [hb] at hb'
            injection hb' with hbb
            subst hbb
            exact Dict.get?_set_self _ _ _
          · intro m' rs' hm' hrs'
            injection hm' with hmm
            subst hmm
            rw [hrs] at hrs'
            exact Option.noConfusion hrs'
        | some rs =>
          dsimp only
          refine ⟨Dict.get?_set_self _ _ _, Dict.get?_set_self _ _ _, ?_, ?_⟩
          · intro m' b' hm' hb'
            injection hm' with hmm
            subst hmm
            rw [hb] at hb'
            injection hb' with hbb
            subst hbb
            exact Dict.get?_set_self _ _ _
          · intro m' rs' hm' hrs'
            injection hm' with hmm
            subst hmm
            rw [hrs] at hrs'
            injection hrs' with hrr
            subst hrr
            exact Dict.get?_set_self _ _ _

/-- The roster-loop step only writes at its own pair's key. -/
theorem oppStep_get?_ne (cfg : Settings) (tm : Dict String TeamMeta) (al : List String)
    (tr : OpponentTracker) (kv' : String × List RosterEntry) (k : String)
    (hk : k ≠ kv'.1) :
    Dict.get? (oppStep cfg tm al tr kv').team_rosters k = Dict.get? tr.team_rosters k ∧
    Dict.get? (oppStep cfg tm al tr kv').team_names k = Dict.get? tr.team_names k ∧
    Dict.get? (oppStep cfg tm al tr kv').team_budgets k = Dict.get? tr.team_budgets k ∧
    Dict.get? (oppStep cfg tm al tr kv').team_sizes k = Dict.get? tr.team_sizes k := by
  simp only [oppStep]
  split_ifs with hs
  · exact ⟨rfl, rfl, rfl, rfl⟩
  · cases hm : Dict.get? tm kv'.1 with
    | none =>
      dsimp only
      exact ⟨Dict.get?_set_ne _ hk _, Dict.get?_set_ne _ hk _, rfl, rfl⟩
    | some m =>
      dsimp only
      cases hb : m.budget with
      | none =>
        cases hrs : m.rosterSize with
        | none =>
          dsimp only
          exact ⟨Dict.get?_set_ne _ hk _, Dict.get?_set_ne _ hk _, rfl, rfl⟩
        | some rs =>
          dsimp only
          exact ⟨Dict.get?_set_ne _ hk _, Dict.get?_set_ne _ hk _, rfl,
            Dict.get?_set_ne _ hk _⟩
      | some b =>
        cases hrs : m.rosterSize with
        | none =>
          dsimp only
          exact ⟨Dict.get?_set_ne _ hk _, Dict.get?_set_ne _ hk _,
            Dict.get?_set_ne _ hk _, rfl⟩
        | some rs =>
          dsimp only
          exact ⟨Dict.get?_set_ne _ hk _, Dict.get?_set_ne _ hk _,
            Dict.get?_set_ne _ hk _, Dict.get?_set_ne _ hk _⟩

/-- Done-ness of a pair survives a step at a different key. -/
theorem oppStep_preserves (cfg : Settings) (tm : Dict String TeamMeta) (al : List String)
    (tr : OpponentTracker) (kv kv' : String × List RosterEntry) (hne : kv.1 ≠ kv'.1)
    (h : OppDone cfg tm al tr kv) : OppDone cfg tm al (oppStep cfg tm al tr kv') kv := by
  simp only [OppDone, OppWritten] at h ⊢
  rcases h with hskip | ⟨h1, h2, h3, h4⟩
  · exact Or.inl hskip
  · obtain ⟨hr, hn, hbu, hsz⟩ := oppStep_get?_ne cfg tm al tr kv' kv.1 hne
    exact Or.inr ⟨hr.trans h1, hn.trans h2,
      fun m b hm' hb' => hbu.trans (h3 m b hm' hb'),
      fun m rs hm' hrs' => hsz.trans (h4 m rs hm' hrs')⟩

/-- Done-ness of a pair survives the rest of the roster loop when its key
never recurs. -/
theorem oppFold_preserves (cfg : Settings) (tm : Dict String TeamMeta) (al : List String)
    (l : Dict String (List RosterEntry)) :
    ∀ tr kv, kv.1 ∉ Dict.keys l → OppDone cfg tm al tr kv →
      OppDone cfg tm al (l.foldl (oppStep cfg tm al) tr) kv := by
  induction l with
  | nil =>
    intro tr kv _ h
    exact h
  | cons kv0 tl ih =>
    intro tr kv hni h
    simp only [Dict.keys, List.map_cons, List.mem_cons, not_or] at hni
    rw [List.foldl_cons]
    refine ih _ kv ?_ (oppStep_preserves cfg tm al tr kv kv0 hni.1 h)
    simpa [Dict.keys] using hni.2

/-- After the roster loop over a duplicate-free roster dict, every pair of
the dict is done. -/
theorem oppFold_post (cfg : Settings) (tm : Dict String TeamMeta) (al : List String)
    (l : Dict String (List RosterEntry)) :
    (Dict.keys l).Nodup → ∀ tr kv, kv ∈ l →
      OppDone cfg tm al (l.foldl (oppStep cfg tm al) tr) kv := by
  induction l with
  | nil =>
    intro _ tr kv hkv
    exact absurd hkv (List.not_mem_nil kv)
  | cons kv0 tl ih =>
    intro hnd tr kv hkv
    simp only [Dict.keys, List.map_cons, List.nodup_cons] at hnd
    rw [List.foldl_cons]
    rcases List.mem_cons.mp hkv with h0 | htl
    · subst h0
      refine oppFold_preserves cfg tm al tl _ kv ?_
        (oppStep_establishes cfg tm al tr kv)
      simpa [Dict.keys] using hnd.1
    · exact ih (by simpa [Dict.keys] using hnd.2) _ kv htl

/-- The roster loop is a no-op once every pair is done. -/
theorem oppFold_noop (cfg : Settings) (tm : Dict String TeamMeta) (al : List String)
    (l : Dict String (List RosterEntry)) (tr : OpponentTracker)
    (h : ∀ kv ∈ l, OppDone cfg tm al tr kv) :
    l.foldl (oppStep cfg tm al) tr = tr := by
  induction l with
  | nil => rfl
  | cons kv0 tl ih =>
    rw [List.foldl_cons, oppStep_noop cfg tm al tr kv0 (h kv0 (by simp))]
    exact ih (fun kv hkv => h kv (List.mem_cons_of_mem kv0 hkv))

/-- Re-running the roster ingestion with the same payload changes nothing
(roster dicts, as Python dicts, carry each team id once). -/
theorem update_from_rosters_idem (tr : OpponentTracker) (cfg : Settings)
    (rosters : Dict String (List RosterEntry)) (teams : List TeamInfo) (nm : String)
    (hnd : (Dict.keys rosters).Nodup) :
    OpponentTracker.update_from_rosters
      (OpponentTracker.update_from_rosters tr cfg rosters teams nm) cfg rosters teams
      nm =
    OpponentTracker.update_from_rosters tr cfg rosters teams nm := by
  simp only [OpponentTracker.update_from_rosters]
  exact oppFold_noop cfg (oppTeamMap teams) (oppAliases nm) rosters _
    (oppFold_post cfg (oppTeamMap teams) (oppAliases nm) rosters hnd tr)

/-- Stage one leaves the budgets of the raw-payload stash. -/
theorem stage1_team_budgets (cfg : Settings) (fz : FuzzyStep) (u : DraftUpdate)
    (s : DraftState) :
    (updateStage1 cfg fz u s).team_budgets = (applyRawAndBudgets u s).team_budgets := rfl

/-- Re-stashing the same update after an ingestion is the identity. -/
theorem applyRaw_after_update (cfg : Settings) (fz : FuzzyStep) (t : ℚ) (u : DraftUpdate)
    (s : DraftState) :
    applyRawAndBudgets u (DraftState.update_from_draft_event cfg fz t u s) =
      DraftState.update_from_draft_event cfg fz t u s := by
  refine applyRawAndBudgets_noop u _ (update_raw_latest cfg fz t u s) ?_
  intro hnb
  rw [update_team_budgets, applyRawAndBudgets_team_budgets, if_pos hnb]

/-- Re-running the sale-marking fold of the same update after an ingestion
changes neither the players nor my_team. -/
theorem markFold_after_update (cfg : Settings) (fz : FuzzyStep) (t : ℚ) (u : DraftUpdate)
    (s : DraftState) :
    updateMarkFold cfg fz u (DraftState.update_from_draft_event cfg fz t u s) =
      ((DraftState.update_from_draft_event cfg fz t u s).players,
        (DraftState.update_from_draft_event cfg fz t u s).my_team) := by
  simp only [updateMarkFold, applyRaw_after_update cfg fz t u s]
  apply markFold_noop
  intro e he
  show DraftedAt (DraftState.update_from_draft_event cfg fz t u s).players
    (entryKey (DraftState.update_from_draft_event cfg fz t u s).players
      (DraftState.update_from_draft_event cfg fz t u s).resolverIndex fz e)
  rw [update_resolver cfg fz t u s,
    entryKey_congr (update_keys cfg fz t u s) s.resolverIndex fz e]
  exact update_drafted_post cfg fz t u s e he

/-- The my-team budget scan is the identity on a post-ingestion budget. -/
theorem budget_fold_after_update (cfg : Settings) (fz : FuzzyStep) (t : ℚ)
    (u : DraftUpdate) (s : DraftState) :
    myBudgetFold cfg u.teams (DraftState.update_from_draft_event cfg fz t u s).my_team.budget =
      (DraftState.update_from_draft_event cfg fz t u s).my_team.budget := by
  rw [update_my_team cfg fz t u s]
  exact myBudgetFold_idem cfg u.teams (updateMarkFold cfg fz u s).2.budget

/-- Stage one of re-ingesting the same update is the identity. -/
theorem stage1_after_update (cfg : Settings) (fz : FuzzyStep) (t : ℚ) (u : DraftUpdate)
    (s : DraftState) :
    updateStage1 cfg fz u (DraftState.update_from_draft_event cfg fz t u s) =
      DraftState.update_from_draft_event cfg fz t u s := by
  simp only [updateStage1, applyRaw_after_update cfg fz t u s,
    markFold_after_update cfg fz t u s]
  rw [show ((DraftState.update_from_draft_event cfg fz t u s).players,
      (DraftState.update_from_draft_event cfg fz t u s).my_team).2.budget =
      (DraftState.update_from_draft_event cfg fz t u s).my_team.budget from rfl,
    budget_fold_after_update cfg fz t u s,
    ← update_draft_log cfg fz t u s]

/-- No player is newly drafted relative to the already-drafted keys of the
same dict. -/
theorem filter_already_nil (l : Dict String PlayerState) :
    l.filter (fun kv => kv.2.is_drafted ∧
      kv.1 ∉ (l.filter (fun kv => kv.2.is_drafted)).map Prod.fst) = [] := by
  rw [List.filter_eq_nil_iff]
  intro kv hkv
  by_cases hd : kv.2.is_drafted
  · have hmem : kv.1 ∈ (l.filter (fun kv => kv.2.is_drafted)).map Prod.fst :=
      List.mem_map_of_mem Prod.fst (List.mem_filter.mpr ⟨hkv, hd⟩)
    simp [hd, hmem]
  · simp [hd]

/-- C1 (corrected): re-ingesting the same cumulative update is a no-op on
every persistent field of the state — players, budgets, my_team,
replacement levels, aggregates, draft log, raw payload, resolver, opponent
tracker and aliases are identical after the second ingestion, and no player
is double-counted as newly drafted (the second newly_drafted list is
empty) — under the physically-guaranteed hypothesis that the update's
roster dict carries each team id once. The full states are nevertheless
not identical: the inflation-history log grows on every ingestion (see the
accompanying counterexample). -/
theorem update_reapply_core_eq (cfg : Settings) (fz : FuzzyStep) (t₁ t₂ : ℚ)
    (u : DraftUpdate) (s : DraftState) (hnd : (Dict.keys u.rosters).Nodup) :
    (DraftState.update_from_draft_event cfg fz t₂ u (DraftState.update_from_draft_event cfg fz t₁ u s)).players =
      (DraftState.update_from_draft_event cfg fz t₁ u s).players ∧
    (DraftState.update_from_draft_event cfg fz t₂ u (DraftState.update_from_draft_event cfg fz t₁ u s)).team_budgets =
      (DraftState.update_from_draft_event cfg fz t₁ u s).team_budgets ∧
    (DraftState.update_from_draft_event cfg fz t₂ u (DraftState.update_from_draft_event cfg fz t₁ u s)).my_team =
      (DraftState.update_from_draft_event cfg fz t₁ u s).my_team ∧
    (DraftState.update_from_draft_event cfg fz t₂ u (DraftState.update_from_draft_event cfg fz t₁ u s)).replacement_level =
      (DraftState.update_from_draft_event cfg fz t₁ u s).replacement_level ∧
    (DraftState.update_from_draft_event cfg fz t₂ u (DraftState.update_from_draft_event cfg fz t₁ u s)).total_remaining_aav =
      (DraftState.update_from_draft_event cfg fz t₁ u s).total_remaining_aav ∧
    (DraftState.update_from_draft_event cfg fz t₂ u (DraftState.update_from_draft_event cfg fz t₁ u s)).total_remaining_cash =
      (DraftState.update_from_draft_event cfg fz t₁ u s).total_remaining_cash ∧
    (DraftState.update_from_draft_event cfg fz t₂ u (DraftState.update_from_draft_event cfg fz t₁ u s)).inflation_factor =
      (DraftState.update_from_draft_event cfg fz t₁ u s).inflation_factor ∧
    (DraftState.update_from_draft_event cfg fz t₂ u (DraftState.update_from_draft_event cfg fz t₁ u s)).draft_log =
      (DraftState.update_from_draft_event cfg fz t₁ u s).draft_log ∧
    (DraftState.update_from_draft_event cfg fz t₂ u (DraftState.update_from_draft_event cfg fz t₁ u s)).raw_latest =
      (DraftState.update_from_draft_event cfg fz t₁ u s).raw_latest ∧
    (DraftState.update_from_draft_event cfg fz t₂ u (DraftState.update_from_draft_event cfg fz t₁ u s)).resolverIndex =
      (DraftState.update_from_draft_event cfg fz t₁ u s).resolverIndex ∧
    (DraftState.update_from_draft_event cfg fz t₂ u (DraftState.update_from_draft_event cfg fz t₁ u s)).opponent_tracker =
      (DraftState.update_from_draft_event cfg fz t₁ u s).opponent_tracker ∧
    (DraftState.update_from_draft_event cfg fz t₂ u (DraftState.update_from_draft_event cfg fz t₁ u s)).team_aliases =
      (DraftState.update_from_draft_event cfg fz t₁ u s).team_aliases ∧
    (DraftState.update_from_draft_event cfg fz t₂ u (DraftState.update_from_draft_event cfg fz t₁ u s)).newly_drafted = [] := by
  have hp : (DraftState.update_from_draft_event cfg fz t₂ u (DraftState.update_from_draft_event cfg fz t₁ u s)).players =
      (DraftState.update_from_draft_event cfg fz t₁ u s).players := by
    rw [update_players cfg fz t₂ u (DraftState.update_from_draft_event cfg fz t₁ u s),
      stage1_after_update cfg fz t₁ u s,
      computeVonas_idem (updateStage1 cfg fz u s) (DraftState.update_from_draft_event cfg fz t₁ u s)
        (update_players cfg fz t₁ u s),
      ← update_players cfg fz t₁ u s]
  have htb : (DraftState.update_from_draft_event cfg fz t₂ u (DraftState.update_from_draft_event cfg fz t₁ u s)).team_budgets =
      (DraftState.update_from_draft_event cfg fz t₁ u s).team_budgets := by
    rw [update_team_budgets cfg fz t₂ u (DraftState.update_from_draft_event cfg fz t₁ u s),
      applyRaw_after_update cfg fz t₁ u s]
  have hmt : (DraftState.update_from_draft_event cfg fz t₂ u (DraftState.update_from_draft_event cfg fz t₁ u s)).my_team =
      (DraftState.update_from_draft_event cfg fz t₁ u s).my_team := by
    rw [update_my_team cfg fz t₂ u (DraftState.update_from_draft_event cfg fz t₁ u s),
      markFold_after_update cfg fz t₁ u s]
    show { (DraftState.update_from_draft_event cfg fz t₁ u s).my_team with
      budget := myBudgetFold cfg u.teams (DraftState.update_from_draft_event cfg fz t₁ u s).my_team.budget } =
      (DraftState.update_from_draft_event cfg fz t₁ u s).my_team
    rw [budget_fold_after_update cfg fz t₁ u s]
  have haav : (DraftState.update_from_draft_event cfg fz t₂ u (DraftState.update_from_draft_event cfg fz t₁ u s)).total_remaining_aav =
      (DraftState.update_from_draft_event cfg fz t₁ u s).total_remaining_aav := by
    rw [update_aav cfg fz t₂ u (DraftState.update_from_draft_event cfg fz t₁ u s),
      stage1_after_update cfg fz t₁ u s,
      update_players cfg fz t₁ u s, remainingAAV_computeVonas,
      update_aav cfg fz t₁ u s]
  have hcash : (DraftState.update_from_draft_event cfg fz t₂ u (DraftState.update_from_draft_event cfg fz t₁ u s)).total_remaining_cash =
      (DraftState.update_from_draft_event cfg fz t₁ u s).total_remaining_cash := by
    rw [update_cash cfg fz t₂ u (DraftState.update_from_draft_event cfg fz t₁ u s),
      stage1_team_budgets, applyRaw_after_update cfg fz t₁ u s,
      update_team_budgets cfg fz t₁ u s,
      update_cash cfg fz t₁ u s, stage1_team_budgets]
  have hinfl : (DraftState.update_from_draft_event cfg fz t₂ u (DraftState.update_from_draft_event cfg fz t₁ u s)).inflation_factor =
      (DraftState.update_from_draft_event cfg fz t₁ u s).inflation_factor := by
    rw [update_infl cfg fz t₂ u (DraftState.update_from_draft_event cfg fz t₁ u s),
      stage1_after_update cfg fz t₁ u s,
      update_players cfg fz t₁ u s, remainingAAV_computeVonas,
      update_team_budgets cfg fz t₁ u s,
      update_infl cfg fz t₁ u s, stage1_team_budgets]
  have hopp : (DraftState.update_from_draft_event cfg fz t₂ u (DraftState.update_from_draft_event cfg fz t₁ u s)).opponent_tracker =
      (DraftState.update_from_draft_event cfg fz t₁ u s).opponent_tracker := by
    rw [update_opponent cfg fz t₂ u (DraftState.update_from_draft_event cfg fz t₁ u s),
      update_opponent cfg fz t₁ u s]
    split_ifs with hc
    · exact update_from_rosters_idem s.opponent_tracker cfg u.rosters u.teams
        cfg.my_team_name hnd
    · rfl
  have hnew : (DraftState.update_from_draft_event cfg fz t₂ u (DraftState.update_from_draft_event cfg fz t₁ u s)).newly_drafted = [] := by
    rw [update_newly cfg fz t₂ u (DraftState.update_from_draft_event cfg fz t₁ u s),
      recompute_players_eq, stage1_after_update cfg fz t₁ u s,
      computeVonas_idem (updateStage1 cfg fz u s) (DraftState.update_from_draft_event cfg fz t₁ u s)
        (update_players cfg fz t₁ u s),
      ← update_players cfg fz t₁ u s,
      filter_already_nil]
    rfl
  refine ⟨hp, htb, hmt,
    update_replacement cfg fz t₂ u (DraftState.update_from_draft_event cfg fz t₁ u s),
    haav, hcash, hinfl,
    (update_draft_log cfg fz t₂ u (DraftState.update_from_draft_event cfg fz t₁ u s)).trans
      (update_draft_log cfg fz t₁ u s).symm,
    (update_raw_latest cfg fz t₂ u (DraftState.update_from_draft_event cfg fz t₁ u s)).trans
      (update_raw_latest cfg fz t₁ u s).symm,
    update_resolver cfg fz t₂ u (DraftState.update_from_draft_event cfg fz t₁ u s),
    hopp,
    update_aliases cfg fz t₂ u (DraftState.update_from_draft_event cfg fz t₁ u s),
    hnew⟩

/-- C1 (counterexample): re-ingesting the same cumulative update does not
yield an identical state object: the inflation-history log records a sample
on every ingestion, so its length grows from 2 to 3. -/
theorem update_reapply_not_identical :
    DraftState.update_from_draft_event defaultSettings noFuzzy 2 etienneUpdate (DraftState.update_from_draft_event defaultSettings noFuzzy 1 etienneUpdate c8Pool) ≠
      DraftState.update_from_draft_event defaultSettings noFuzzy 1 etienneUpdate c8Pool := by
  intro h
  exact absurd (congrArg (fun st => st.inflation_history.length) h) (by decide)

/-- C1 witness: the corrected idempotence theorem applied to the
single-player pool and the Travis Etienne Jr. sale update. -/
theorem update_reapply_core_eq_witness :
    (Dict.keys etienneUpdate.rosters).Nodup ∧
    (     (DraftState.update_from_draft_event defaultSettings noFuzzy 2 etienneUpdate (DraftState.update_from_draft_event defaultSettings noFuzzy 1 etienneUpdate c8Pool)).players =
        (DraftState.update_from_draft_event defaultSettings noFuzzy 1 etienneUpdate c8Pool).players ∧
     (DraftState.update_from_draft_event defaultSettings noFuzzy 2 etienneUpdate (DraftState.update_from_draft_event defaultSettings noFuzzy 1 etienneUpdate c8Pool)).team_budgets =
        (DraftState.update_from_draft_event defaultSettings noFuzzy 1 etienneUpdate c8Pool).team_budgets ∧
     (DraftState.update_from_draft_event defaultSettings noFuzzy 2 etienneUpdate (DraftState.update_from_draft_event defaultSettings noFuzzy 1 etienneUpdate c8Pool)).my_team =
        (DraftState.update_from_draft_event defaultSettings noFuzzy 1 etienneUpdate c8Pool).my_team ∧
     (DraftState.update_from_draft_event defaultSettings noFuzzy 2 etienneUpdate (DraftState.update_from_draft_event defaultSettings noFuzzy 1 etienneUpdate c8Pool)).replacement_level =
        (DraftState.update_from_draft_event defaultSettings noFuzzy 1 etienneUpdate c8Pool).replacement_level ∧
     (DraftState.update_from_draft_event defaultSettings noFuzzy 2 etienneUpdate (DraftState.update_from_draft_event defaultSettings noFuzzy 1 etienneUpdate c8Pool)).total_remaining_aav =
        (DraftState.update_from_draft_event defaultSettings noFuzzy 1 etienneUpdate c8Pool).total_remaining_aav ∧
     (DraftState.update_from_draft_event defaultSettings noFuzzy 2 etienneUpdate (DraftState.update_from_draft_event defaultSettings noFuzzy 1 etienneUpdate c8Pool)).total_remaining_cash =
        (DraftState.update_from_draft_event defaultSettings noFuzzy 1 etienneUpdate c8Pool).total_remaining_cash ∧
     (DraftState.update_from_draft_event defaultSettings noFuzzy 2 etienneUpdate (DraftState.update_from_draft_event defaultSettings noFuzzy 1 etienneUpdate c8Pool)).inflation_factor =
        (DraftState.update_from_draft_event defaultSettings noFuzzy 1 etienneUpdate c8Pool).inflation_factor ∧
     (DraftState.update_from_draft_event defaultSettings noFuzzy 2 etienneUpdate (DraftState.update_from_draft_event defaultSettings noFuzzy 1 etienneUpdate c8Pool)).draft_log =
        (DraftState.update_from_draft_event defaultSettings noFuzzy 1 etienneUpdate c8Pool).draft_log ∧
     (DraftState.update_from_draft_event defaultSettings noFuzzy 2 etienneUpdate (DraftState.update_from_draft_event defaultSettings noFuzzy 1 etienneUpdate c8Pool)).raw_latest =
        (DraftState.update_from_draft_event defaultSettings noFuzzy 1 etienneUpdate c8Pool).raw_latest ∧
     (DraftState.update_from_draft_event defaultSettings noFuzzy 2 etienneUpdate (DraftState.update_from_draft_event defaultSettings noFuzzy 1 etienneUpdate c8Pool)).resolverIndex =
        (DraftState.update_from_draft_event defaultSettings noFuzzy 1 etienneUpdate c8Pool).resolverIndex ∧
     (DraftState.update_from_draft_event defaultSettings noFuzzy 2 etienneUpdate (DraftState.update_from_draft_event defaultSettings noFuzzy 1 etienneUpdate c8Pool)).opponent_tracker =
        (DraftState.update_from_draft_event defaultSettings noFuzzy 1 etienneUpdate c8Pool).opponent_tracker ∧
     (DraftState.update_from_draft_event defaultSettings noFuzzy 2 etienneUpdate (DraftState.update_from_draft_event defaultSettings noFuzzy 1 etienneUpdate c8Pool)).team_aliases =
        (DraftState.update_from_draft_event defaultSettings noFuzzy 1 etienneUpdate c8Pool).team_aliases ∧
     (DraftState.update_from_draft_event defaultSettings noFuzzy 2 etienneUpdate (DraftState.update_from_draft_event defaultSettings noFuzzy 1 etienneUpdate c8Pool)).newly_drafted = []) :=
  ⟨by decide,
    update_reapply_core_eq defaultSettings noFuzzy 1 2 etienneUpdate c8Pool (by decide)⟩

end FantasyAuction

